import Mathlib

/-!
# SampleSource reconciler: a shallow embedding

Embedding of `pkg/reconciler/samplesource.go`,
`pkg/reconciler/resources/receive_adapter.go` and
`pkg/apis/samples/v1alpha1/samplesource_lifecycle.go`.

Conventions.
* Go structs become Lean structures restricted to the fields the repository
  reads or writes; Go pointers become `Option`; Go slices become `List`
  (a nil slice and an empty slice are both `[]`).
* Calls to the external collaborators (deployment client, event-type client,
  sink resolver, SampleSource lister and client, event recorder, stats
  reporter) are explicit: every function that talks to one takes the
  collaborator as a record of functions over a world state `W`, threads the
  world through, and returns the list of calls it issued, in order.
* Log statements are dropped. Time stamps (`LastTransitionTime`, the
  time-to-ready duration) are not modelled.
-/

namespace Reconciler

/-! ## Kubernetes object model -/

/-- Go `metav1.OwnerReference`. -/
structure OwnerReference where
  apiVersion : String
  kind : String
  name : String
  uid : String
  controller : Option Bool
  blockOwnerDeletion : Option Bool
deriving DecidableEq, Repr

/-- Go `metav1.ObjectMeta`, with the fields used by the reconciler. The field
`ns` is Go's `Namespace`. -/
structure ObjectMeta where
  ns : String
  name : String
  uid : String
  labels : List (String × String)
  ownerReferences : List OwnerReference
deriving DecidableEq, Repr

/-- Modelled from the spec: `metav1.GetControllerOf` (k8s.io/apimachinery) is
not part of the sources. The owner reference marking the exclusive controlling
parent: the first one whose `Controller` pointer is set and true. -/
def GetControllerOf (m : ObjectMeta) : Option OwnerReference :=
  m.ownerReferences.find? (fun r => r.controller = some true)

/-- Modelled from the spec: `metav1.IsControlledBy(obj, owner)`
(k8s.io/apimachinery) is not part of the sources. The object is marked as
controlled by the owner: its controller reference exists and carries the UID
of the owner. -/
def IsControlledBy (obj owner : ObjectMeta) : Bool :=
  match GetControllerOf obj with
  | none => false
  | some r => decide (r.uid = owner.uid)

/-! ## Event types and the diff engine -/

/-- Go `eventingv1alpha1.EventTypeSpec`. -/
structure EventTypeSpec where
  type : String
  source : String
  schema : String
  broker : String
  description : String
deriving DecidableEq, Repr

/-- Go `eventingv1alpha1.EventType`. -/
structure EventType where
  meta : ObjectMeta
  spec : EventTypeSpec
deriving DecidableEq, Repr

/-- Go `keyFromEventType`:
`fmt.Sprintf("%s_%s_%s_%s", Spec.Type, Spec.Source, Spec.Schema, Spec.Broker)`. -/
def keyFromEventType (eventType : EventType) : String :=
  eventType.spec.type ++ "_" ++ eventType.spec.source ++ "_" ++
    eventType.spec.schema ++ "_" ++ eventType.spec.broker

/-- A Go `map[string]EventType`, observed through its lookup. -/
abbrev EventTypeMap := String → Option EventType

/-- Go `asMap`: iterate over the slice and assign `m[keyFunc(et)] = et`, so a
later element overwrites an earlier one with the same key. -/
def asMap (eventTypes : List EventType) (keyFunc : EventType → String) : EventTypeMap :=
  eventTypes.foldl
    (fun m eventType => fun k => if k = keyFunc eventType then some eventType else m k)
    (fun _ => none)

/-- Body of the first loop of `computeDiff`, over `expected`. The accumulator is
`(toCreate, toDelete)`. `equality.Semantic.DeepEqual` on two `EventTypeSpec`
values (five strings) is equality. -/
def diffExpectedStep (currentMap : EventTypeMap)
    (acc : List EventType × List EventType) (e : EventType) :
    List EventType × List EventType :=
  match currentMap (keyFromEventType e) with
  | none => (acc.1 ++ [e], acc.2)
  | some c =>
    if ¬ (e.spec = c.spec) then (acc.1 ++ [e], acc.2 ++ [c]) else acc

/-- Body of the second loop of `computeDiff`, over `current`. -/
def diffCurrentStep (expectedMap : EventTypeMap)
    (toDelete : List EventType) (c : EventType) : List EventType :=
  match expectedMap (keyFromEventType c) with
  | none => toDelete ++ [c]
  | some _ => toDelete

/-- Go `Reconciler.computeDiff`; returns `(toCreate, toDelete)`. -/
def computeDiff (current expected : List EventType) :
    List EventType × List EventType :=
  let currentMap := asMap current keyFromEventType
  let expectedMap := asMap expected keyFromEventType
  let acc := expected.foldl (diffExpectedStep currentMap) ([], [])
  let toDelete := current.foldl (diffCurrentStep expectedMap) acc.2
  (acc.1, toDelete)

/-- The identity tuple (type, source, schema, broker) of a descriptor. -/
def identityTuple (e : EventType) : String × String × String × String :=
  (e.spec.type, e.spec.source, e.spec.schema, e.spec.broker)

/-- Applying a diff to a collection: remove every descriptor that occurs in
`toDelete`, then add every descriptor of `toCreate`. -/
def applyDiff (current toCreate toDelete : List EventType) : List EventType :=
  current.filter (fun c => decide (c ∉ toDelete)) ++ toCreate

/-- Descriptor with empty metadata apart from its name, for examples. -/
def mkEventType (name type source schema broker description : String) : EventType :=
  { meta := { ns := "default", name := name, uid := "", labels := [], ownerReferences := [] },
    spec := { type := type, source := source, schema := schema, broker := broker,
              description := description } }

/-- The creation test of the first loop of `computeDiff`: the key is absent
from `currentMap`, or the spec differs from the one stored under the key. -/
def isCreation (currentMap : EventTypeMap) (e : EventType) : Bool :=
  match currentMap (keyFromEventType e) with
  | none => true
  | some c => decide (¬ (e.spec = c.spec))

/-- The descriptor the first loop of `computeDiff` appends to `toDelete` for
`e`, if any. -/
def replaced (currentMap : EventTypeMap) (e : EventType) : Option EventType :=
  match currentMap (keyFromEventType e) with
  | none => none
  | some c => if ¬ (e.spec = c.spec) then some c else none

/-- Two collections are equal as sets keyed by `keyFromEventType`. -/
def sameKeySet (a b : List EventType) : Prop :=
  ∀ k, k ∈ a.map keyFromEventType ↔ k ∈ b.map keyFromEventType

/-- Two collections are equal as sets keyed by the identity tuple. -/
def sameIdentitySet (a b : List EventType) : Prop :=
  ∀ k, k ∈ a.map identityTuple ↔ k ∈ b.map identityTuple

/-- Two stored descriptors whose identity tuples differ and whose keys agree. -/
def staleUnderscore : EventType := mkEventType "et-1" "a_b" "c" "" "br" ""

/-- Stored descriptor with type `a` and source `b_c`. -/
def keptUnderscore : EventType := mkEventType "et-2" "a" "b_c" "" "br" ""

/-- Desired descriptor with type `a` and source `b_c`. -/
def wantedUnderscore : EventType := mkEventType "" "a" "b_c" "" "br" ""

/-- A descriptor of the sample event type. -/
def dupFirst : EventType :=
  mkEventType "et-1" "dev.knative.sample" "default/src" "" "br" ""

/-- Same identity tuple as `dupFirst`, another description. -/
def dupSecond : EventType :=
  mkEventType "et-2" "dev.knative.sample" "default/src" "" "br" "second"

/-! ## Conditions and the status lifecycle -/

/-- Go `corev1.ConditionStatus`. -/
inductive ConditionStatus where
  | ConditionTrue
  | ConditionFalse
  | ConditionUnknown
deriving DecidableEq, Repr

/-- Go `apis.ConditionSeverity`. -/
inductive ConditionSeverity where
  | Error
  | Warning
  | Info
deriving DecidableEq, Repr

/-- Go `apis.Condition` without `LastTransitionTime`. -/
structure Condition where
  type : String
  status : ConditionStatus
  severity : ConditionSeverity
  reason : String
  message : String
deriving DecidableEq, Repr

/-- Go `SampleSourceStatus` (`duckv1.SourceStatus`). -/
structure SampleSourceStatus where
  observedGeneration : Nat
  conditions : List Condition
  sinkURI : String
deriving DecidableEq, Repr

/-- Go `SampleConditionSinkProvided`. -/
def SampleConditionSinkProvided : String := "SinkProvided"

/-- Go `SampleConditionDeployed`. -/
def SampleConditionDeployed : String := "Deployed"

/-- Go `SampleConditionEventTypeProvided`. -/
def SampleConditionEventTypeProvided : String := "EventTypesProvided"

/-- Go `SampleCondSet`: the tracked conditions handed to
`apis.NewLivingConditionSet`. -/
def SampleCondSet : List String :=
  [SampleConditionSinkProvided, SampleConditionDeployed, SampleConditionEventTypeProvided]

namespace CondSet

/-- Modelled from the spec: the condition manager `SampleCondSet.Manage(s)`
(package knative.dev/pkg/apis) is called by the lifecycle file and is not part
of the sources. `GetCondition` returns the condition stored under a name. -/
def GetCondition (conds : List Condition) (t : String) : Option Condition :=
  conds.find? (fun c => decide (c.type = t))

/-- Modelled from the spec: `SetCondition` sets exactly the condition of the
given name and never mutates the others. -/
def SetCondition (conds : List Condition) (new : Condition) : List Condition :=
  conds.filter (fun c => decide (c.type ≠ new.type)) ++ [new]

/-- Modelled from the spec: `mark_true(name)`. Tracked conditions carry Error
severity. -/
def MarkTrue (conds : List Condition) (t : String) : List Condition :=
  SetCondition conds
    { type := t, status := ConditionStatus.ConditionTrue,
      severity := ConditionSeverity.Error, reason := "", message := "" }

/-- Modelled from the spec: `mark_false(name, reason, message)`. The message is
passed already formatted. -/
def MarkFalse (conds : List Condition) (t reason message : String) : List Condition :=
  SetCondition conds
    { type := t, status := ConditionStatus.ConditionFalse,
      severity := ConditionSeverity.Error, reason := reason, message := message }

/-- Modelled from the spec: `mark_unknown(name, reason, message)`. -/
def MarkUnknown (conds : List Condition) (t reason message : String) : List Condition :=
  SetCondition conds
    { type := t, status := ConditionStatus.ConditionUnknown,
      severity := ConditionSeverity.Error, reason := reason, message := message }

/-- Modelled from the spec: `initialize()`: every tracked condition that is
absent is set to Unknown. -/
def InitializeConditions (tracked : List String) (conds : List Condition) : List Condition :=
  tracked.foldl
    (fun cs t =>
      match GetCondition cs t with
      | some _ => cs
      | none =>
        SetCondition cs
          { type := t, status := ConditionStatus.ConditionUnknown,
            severity := ConditionSeverity.Error, reason := "", message := "" })
    conds

/-- Modelled from the spec: `is_ready()` is true iff all tracked conditions are
True; the aggregate Ready condition is this computation. -/
def IsHappy (tracked : List String) (conds : List Condition) : Bool :=
  tracked.all (fun t =>
    match GetCondition conds t with
    | some c => decide (c.status = ConditionStatus.ConditionTrue)
    | none => false)

end CondSet

namespace SampleSourceStatus

/-- Go `SampleSourceStatus.GetCondition`. -/
def GetCondition (s : SampleSourceStatus) (t : String) : Option Condition :=
  CondSet.GetCondition s.conditions t

/-- Go `SampleSourceStatus.InitializeConditions`. -/
def InitializeConditions (s : SampleSourceStatus) : SampleSourceStatus :=
  { s with conditions := CondSet.InitializeConditions SampleCondSet s.conditions }

/-- The message set by `MarkSinkWarnRefDeprecated`. -/
def deprecatedRefMessage : String :=
  "Using deprecated object ref fields when specifying spec.sink. These will be removed in a future release. Update to spec.sink.ref."

/-- Go `SampleSourceStatus.MarkSinkWarnRefDeprecated`. -/
def MarkSinkWarnRefDeprecated (s : SampleSourceStatus) (uri : String) : SampleSourceStatus :=
  let s := { s with sinkURI := uri }
  if uri.length > 0 then
    { s with conditions := (CondSet.SetCondition s.conditions
        { type := SampleConditionSinkProvided, status := ConditionStatus.ConditionTrue,
          severity := ConditionSeverity.Error, reason := "",
          message := deprecatedRefMessage }) }
  else
    { s with conditions := (CondSet.MarkUnknown s.conditions SampleConditionSinkProvided
        "SinkEmpty" "Sink has resolved to empty.") }

/-- Go `SampleSourceStatus.MarkSink`. -/
def MarkSink (s : SampleSourceStatus) (uri : String) : SampleSourceStatus :=
  let s := { s with sinkURI := uri }
  if uri.length > 0 then
    { s with conditions := CondSet.MarkTrue s.conditions SampleConditionSinkProvided }
  else
    { s with conditions := (CondSet.MarkUnknown s.conditions SampleConditionSinkProvided
        "SinkEmpty" "Sink has resolved to empty.") }

/-- Go `SampleSourceStatus.MarkNoSink`, the message already formatted. -/
def MarkNoSink (s : SampleSourceStatus) (reason message : String) : SampleSourceStatus :=
  { s with conditions :=
      CondSet.MarkFalse s.conditions SampleConditionSinkProvided reason message }

/-- Go `SampleSourceStatus.MarkEventTypes`. -/
def MarkEventTypes (s : SampleSourceStatus) : SampleSourceStatus :=
  { s with conditions := CondSet.MarkTrue s.conditions SampleConditionEventTypeProvided }

/-- Go `SampleSourceStatus.MarkNoEventTypes`, the message already formatted. -/
def MarkNoEventTypes (s : SampleSourceStatus) (reason message : String) : SampleSourceStatus :=
  { s with conditions :=
      CondSet.MarkFalse s.conditions SampleConditionEventTypeProvided reason message }

/-- Go `SampleSourceStatus.IsReady`. -/
def IsReady (s : SampleSourceStatus) : Bool :=
  CondSet.IsHappy SampleCondSet s.conditions

end SampleSourceStatus

/-! ## Pod specs and the receive adapter deployment -/

/-- Go `corev1.ObjectFieldSelector`. -/
structure ObjectFieldSelector where
  apiVersion : String
  fieldPath : String
deriving DecidableEq, Repr

/-- Go `corev1.EnvVarSource`, with the `FieldRef` source used by `makeEnv`. -/
structure EnvVarSource where
  fieldRef : Option ObjectFieldSelector
deriving DecidableEq, Repr

/-- Go `corev1.EnvVar`. -/
structure EnvVar where
  name : String
  value : String
  valueFrom : Option EnvVarSource
deriving DecidableEq, Repr

/-- Go `corev1.Container`: the fields set by `MakeReceiveAdapter`, and
`ImagePullPolicy` as an example of a field the cluster fills in. -/
structure Container where
  name : String
  image : String
  env : List EnvVar
  imagePullPolicy : String
deriving DecidableEq, Repr

/-- Go `corev1.PodSpec`: the fields set by `MakeReceiveAdapter`, and
`RestartPolicy`, `DNSPolicy` as examples of fields the cluster fills in. -/
structure PodSpec where
  serviceAccountName : String
  containers : List Container
  restartPolicy : String
  dnsPolicy : String
deriving DecidableEq, Repr

/-- Go `corev1.PodTemplateSpec`. -/
structure PodTemplateSpec where
  labels : List (String × String)
  spec : PodSpec
deriving DecidableEq, Repr

/-- Go `appsv1.DeploymentSpec`. -/
structure DeploymentSpec where
  selector : List (String × String)
  replicas : Option Nat
  template : PodTemplateSpec
deriving DecidableEq, Repr

/-- Go `appsv1.DeploymentStatus`: the conditions as (type, status) pairs. -/
structure DeploymentStatus where
  conditions : List (String × String)
deriving DecidableEq, Repr

/-- Go `appsv1.Deployment`. -/
structure Deployment where
  meta : ObjectMeta
  spec : DeploymentSpec
  status : DeploymentStatus
deriving DecidableEq, Repr

namespace DeepDerivative

/-- Modelled from the spec: `equality.Semantic.DeepDerivative`
(k8s.io/apimachinery) is not part of the sources. It is the structural-subset
test: fields present in the first argument must match the second, unset ones
are ignored. On strings: an empty first argument is unset, otherwise the
strings must be equal. -/
def string (a b : String) : Bool :=
  decide (a = "") || decide (a = b)

/-- Modelled from the spec: `DeepDerivative` on pointers. A nil first argument
is ignored; a non-nil one needs a non-nil second argument whose pointee it
derives from. -/
def pointer {α : Type} (f : α → α → Bool) : Option α → Option α → Bool
  | none, _ => true
  | some _, none => false
  | some x, some y => f x y

/-- Modelled from the spec: `DeepDerivative` on slices. An empty first argument
is ignored; otherwise it must not be longer than the second and must derive
from it index by index. -/
def slice {α : Type} (f : α → α → Bool) (a b : List α) : Bool :=
  a.isEmpty || (decide (a.length ≤ b.length) && (List.zipWith f a b).all id)

/-- Modelled from the spec: `DeepDerivative` on `ObjectFieldSelector`, field by
field. -/
def objectFieldSelector (a b : ObjectFieldSelector) : Bool :=
  string a.apiVersion b.apiVersion && string a.fieldPath b.fieldPath

/-- Modelled from the spec: `DeepDerivative` on `EnvVarSource`, field by field. -/
def envVarSource (a b : EnvVarSource) : Bool :=
  pointer objectFieldSelector a.fieldRef b.fieldRef

/-- Modelled from the spec: `DeepDerivative` on `EnvVar`, field by field. -/
def envVar (a b : EnvVar) : Bool :=
  string a.name b.name && string a.value b.value &&
    pointer envVarSource a.valueFrom b.valueFrom

/-- Modelled from the spec: `DeepDerivative` on `Container`, field by field. -/
def container (a b : Container) : Bool :=
  string a.name b.name && string a.image b.image && slice envVar a.env b.env &&
    string a.imagePullPolicy b.imagePullPolicy

/-- Modelled from the spec: `DeepDerivative` on `PodSpec`, field by field. -/
def podSpec (a b : PodSpec) : Bool :=
  string a.serviceAccountName b.serviceAccountName &&
    slice container a.containers b.containers &&
    string a.restartPolicy b.restartPolicy && string a.dnsPolicy b.dnsPolicy

end DeepDerivative

/-- Go `Reconciler.podSpecChanged`. `equality.Semantic.DeepEqual` on two
`[]EnvVar` values is equality of the lists. The loop indexes both container
slices with the same `i`; it is reached only when they have the same length. -/
def podSpecChanged (oldPodSpec newPodSpec : PodSpec) : Bool :=
  if ¬ (DeepDerivative.podSpec newPodSpec oldPodSpec = true) then true
  else if oldPodSpec.containers.length ≠ newPodSpec.containers.length then true
  else (List.zip newPodSpec.containers oldPodSpec.containers).any
    (fun p => decide (¬ (p.1.env = p.2.env)))

/-- The pod spec with the `j`-th environment variable of the `i`-th container
removed, all else equal. -/
def removeEnvVar (p : PodSpec) (i j : Nat) : PodSpec :=
  { p with containers := p.containers.modify (fun c => { c with env := c.env.eraseIdx j }) i }

/-! ## The SampleSource resource -/

/-- Go `corev1.ObjectReference`; `ns` is Go's `Namespace`. -/
structure ObjectReference where
  kind : String
  ns : String
  name : String
  apiVersion : String
deriving DecidableEq, Repr

/-- Go `apisv1alpha1.Destination`. -/
structure Destination where
  ref : Option ObjectReference
  deprecatedAPIVersion : String
  deprecatedKind : String
  deprecatedName : String
  deprecatedNamespace : String
  uri : Option String
deriving DecidableEq, Repr

/-- Go `v1alpha1.SampleSourceSpec`. -/
structure SampleSourceSpec where
  serviceAccountName : String
  interval : String
  sink : Option Destination
deriving DecidableEq, Repr

/-- Go `v1alpha1.SampleSource`. -/
structure SampleSource where
  meta : ObjectMeta
  spec : SampleSourceSpec
  status : SampleSourceStatus
deriving DecidableEq, Repr

/-- Go `resources.EventTypeArgs`. -/
structure EventTypeArgs where
  src : SampleSource
  type : String
  source : String
deriving DecidableEq, Repr

/-- Functions and constants the reconciler uses whose code is not part of the
sources; they are parameters of the embedding. -/
structure Helpers where
  /-- Go `utils.GenerateFixedName(owner, prefix)`. -/
  GenerateFixedName : ObjectMeta → String → String
  /-- Go `resources.Labels(name)`. -/
  Labels : String → List (String × String)
  /-- Go `resources.MakeEventType(args)`. -/
  MakeEventType : EventTypeArgs → EventType
  /-- Go `v1alpha1.SampleSourceEventType`. -/
  SampleSourceEventType : String
  /-- Go `(*Destination).GetRef()`, also on a nil receiver. -/
  GetRef : Option Destination → Option ObjectReference
  /-- Go `duck.DeploymentIsAvailable(status, default)`. -/
  DeploymentIsAvailable : DeploymentStatus → Bool → Bool

/-- Modelled from the spec: `kmeta.NewControllerRef(source)` (knative.dev/pkg)
is not part of the sources. The owner reference that marks a child as
controlled by the source. -/
def NewControllerRef (source : SampleSource) : OwnerReference :=
  { apiVersion := "samples.knative.dev/v1alpha1", kind := "SampleSource",
    name := source.meta.name, uid := source.meta.uid,
    controller := some true, blockOwnerDeletion := some true }

/-- Go `resources.ReceiveAdapterArgs`. -/
structure ReceiveAdapterArgs where
  eventSource : String
  image : String
  source : SampleSource
  labels : List (String × String)
  sinkURI : String
deriving DecidableEq, Repr

/-- Go `resources.makeEnv`. -/
def makeEnv (eventSource sinkURI : String) (spec : SampleSourceSpec) : List EnvVar :=
  [ { name := "SINK_URI", value := sinkURI, valueFrom := none },
    { name := "EVENT_SOURCE", value := eventSource, valueFrom := none },
    { name := "INTERVAL", value := spec.interval, valueFrom := none },
    { name := "NAMESPACE", value := "",
      valueFrom := some { fieldRef := some { apiVersion := "", fieldPath := "metadata.namespace" } } },
    { name := "METRICS_DOMAIN", value := "knative.dev/eventing", valueFrom := none },
    { name := "K_METRICS_CONFIG", value := "", valueFrom := none },
    { name := "K_LOGGING_CONFIG", value := "", valueFrom := none } ]

/-- Go `resources.MakeReceiveAdapter`. -/
def MakeReceiveAdapter (L : Helpers) (args : ReceiveAdapterArgs) : Deployment :=
  { meta :=
      { ns := args.source.meta.ns,
        name := L.GenerateFixedName args.source.meta ("samplesource-" ++ args.source.meta.name),
        uid := "",
        labels := args.labels,
        ownerReferences := [NewControllerRef args.source] },
    spec :=
      { selector := args.labels,
        replicas := some 1,
        template :=
          { labels := args.labels,
            spec :=
              { serviceAccountName := args.source.spec.serviceAccountName,
                containers :=
                  [ { name := "receive-adapter", image := args.image,
                      env := makeEnv args.eventSource args.sinkURI args.source.spec,
                      imagePullPolicy := "" } ],
                restartPolicy := "", dnsPolicy := "" } } },
    status := { conditions := [] } }

/-- Go `Reconciler.makeEventSource`. -/
def makeEventSource (src : SampleSource) : String :=
  src.meta.ns ++ "/" ++ src.meta.name

/-! ## Collaborators -/

/-- Go `error` values seen by the reconciler. -/
inductive Err where
  /-- An error returned by a collaborator; `notFound` is what
  `apierrors.IsNotFound` answers on it. -/
  | api (notFound : Bool) (msg : String)
  /-- Go `fmt.Errorf("spec.sink missing")`. -/
  | sinkMissing
  /-- Go `fmt.Errorf("error getting receive adapter: %v", err)`. -/
  | gettingReceiveAdapter (cause : Err)
  /-- Go `fmt.Errorf("deployment %q is not owned by SampleSource %q", ra.Name, src.Name)`. -/
  | notOwned (deployment source : String)
deriving DecidableEq, Repr

/-- Go `apierrors.IsNotFound`. -/
def Err.IsNotFound : Err → Bool
  | Err.api nf _ => nf
  | _ => false

/-- Go `samplesourceReadinessChanged`. -/
def samplesourceReadinessChanged : String := "SampleSourceReadinessChanged"

/-- Go `samplesourceDeploymentCreated`. -/
def samplesourceDeploymentCreated : String := "SampleSourceDeploymentCreated"

/-- Go `samplesourceDeploymentUpdated`. -/
def samplesourceDeploymentUpdated : String := "SampleSourceDeploymentUpdated"

/-- A call issued to a collaborator. -/
inductive Call where
  /-- Go `r.sinkResolver.URIFromDestination(dest, source)`. -/
  | resolveSink (dest : Destination)
  /-- Go `Deployments(ns).Get(name, ...)`. -/
  | getDeployment (ns name : String)
  /-- Go `Deployments(ns).Create(d)`. -/
  | createDeployment (ns : String) (d : Deployment)
  /-- Go `Deployments(ns).Update(d)`. -/
  | updateDeployment (ns : String) (d : Deployment)
  /-- Go `EventTypes(ns).List(selector)`. -/
  | listEventTypes (ns : String) (selector : List (String × String))
  /-- Go `EventTypes(ns).Delete(name, ...)`. -/
  | deleteEventType (ns name : String)
  /-- Go `EventTypes(ns).Create(et)`. -/
  | createEventType (ns : String) (et : EventType)
  /-- Go `r.samplesourceLister.SampleSources(ns).Get(name)`. -/
  | getSampleSource (ns name : String)
  /-- Go `SampleSources(ns).UpdateStatus(src)`. -/
  | updateStatus (ns : String) (src : SampleSource)
  /-- Go `r.Recorder.Event(f)` with the given reason; the message is dropped. -/
  | recordEvent (reason : String)
  /-- Go `r.StatsReporter.ReportReady("SampleSource", ns, name, duration)`. -/
  | reportReady (ns name : String)
deriving DecidableEq, Repr

/-- The external collaborators, as functions over a world state `W`. Reads
leave the world unchanged; writes return the new world. -/
structure Collaborators (W : Type) where
  URIFromDestination : W → Destination → SampleSource → Except Err String
  getDeployment : W → String → String → Except Err Deployment
  createDeployment : W → String → Deployment → Except Err Deployment × W
  updateDeployment : W → String → Deployment → Except Err Deployment × W
  listEventTypes : W → String → List (String × String) → Except Err (List EventType)
  deleteEventType : W → String → String → Option Err × W
  createEventType : W → String → EventType → Except Err EventType × W
  getSampleSource : W → String → String → Except Err SampleSource
  updateStatus : W → String → SampleSource → Except Err SampleSource × W

/-- What a function that talks to collaborators produces: its Go return value,
the world it leaves, and the calls it issued, in order. -/
structure Outcome (α W : Type) where
  result : α
  world : W
  calls : List Call

/-! ## Deployment convergence -/

/-- The deployment `createReceiveAdapter` computes as `expected`. The image is
the value of the required environment variable `SAMPLE_SOURCE_RA_IMAGE`
(the Go code panics before any call when it is undefined). -/
def expectedDeployment (L : Helpers) (image : String) (src : SampleSource)
    (sinkURI : String) : Deployment :=
  MakeReceiveAdapter L
    { eventSource := makeEventSource src, image := image, source := src,
      labels := L.Labels src.meta.name, sinkURI := sinkURI }

/-- Go `Reconciler.createReceiveAdapter`. On an error return the deployment is
never read by the caller and is not part of the result. -/
def createReceiveAdapter {W : Type} (L : Helpers) (C : Collaborators W) (image : String)
    (w : W) (src : SampleSource) (sinkURI : String) : Outcome (Except Err Deployment) W :=
  let expected := expectedDeployment L image src sinkURI
  let get := Call.getDeployment src.meta.ns expected.meta.name
  match C.getDeployment w src.meta.ns expected.meta.name with
  | Except.error err =>
    if err.IsNotFound = true then
      let r := C.createDeployment w src.meta.ns expected
      { result := r.1, world := r.2,
        calls := [get, Call.createDeployment src.meta.ns expected,
                  Call.recordEvent samplesourceDeploymentCreated] }
    else
      { result := Except.error (Err.gettingReceiveAdapter err), world := w, calls := [get] }
  | Except.ok ra =>
    if IsControlledBy ra.meta src.meta = false then
      { result := Except.error (Err.notOwned ra.meta.name src.meta.name), world := w,
        calls := [get] }
    else if podSpecChanged ra.spec.template.spec expected.spec.template.spec = true then
      let ra1 : Deployment :=
        { ra with spec := { ra.spec with
            template := { ra.spec.template with spec := expected.spec.template.spec } } }
      match C.updateDeployment w src.meta.ns ra1 with
      | (Except.error err, w1) =>
        { result := Except.error err, world := w1,
          calls := [get, Call.updateDeployment src.meta.ns ra1] }
      | (Except.ok ra2, w1) =>
        { result := Except.ok ra2, world := w1,
          calls := [get, Call.updateDeployment src.meta.ns ra1,
                    Call.recordEvent samplesourceDeploymentUpdated] }
    else
      { result := Except.ok ra, world := w, calls := [get] }

/-! ## Event type convergence -/

/-- Go `Reconciler.getEventTypes`: list by label selector, keep the items
controlled by the source. -/
def getEventTypes {W : Type} (L : Helpers) (C : Collaborators W) (w : W)
    (src : SampleSource) : Except Err (List EventType) :=
  match C.listEventTypes w src.meta.ns (L.Labels src.meta.name) with
  | Except.error err => Except.error err
  | Except.ok items =>
    Except.ok (items.filter (fun et => IsControlledBy et.meta src.meta))

/-- Go `Reconciler.makeEventTypes`; its error result is always nil. The list
`samplesourceEventTypes` holds the one constant `SampleSourceEventType`. -/
def makeEventTypes (L : Helpers) (src : SampleSource) : List EventType :=
  match L.GetRef src.spec.sink with
  | none => []
  | some ref =>
    if ref.kind ≠ "Broker" then []
    else
      [L.SampleSourceEventType].map
        (fun apiEventType =>
          L.MakeEventType
            { src := src, type := apiEventType, source := makeEventSource src })

/-- The first loop of `reconcileEventTypes`: delete in order, return at the
first error. Yields the error if any, the world, and the calls issued. -/
def deleteLoop {W : Type} (C : Collaborators W) (ns : String) :
    W → List EventType → Option Err × W × List Call
  | w, [] => (none, w, [])
  | w, eventType :: rest =>
    match C.deleteEventType w ns eventType.meta.name with
    | (some err, w1) => (some err, w1, [Call.deleteEventType ns eventType.meta.name])
    | (none, w1) =>
      let r := deleteLoop C ns w1 rest
      (r.1, r.2.1, Call.deleteEventType ns eventType.meta.name :: r.2.2)

/-- The second loop of `reconcileEventTypes`: create in order, return at the
first error. -/
def createLoop {W : Type} (C : Collaborators W) (ns : String) :
    W → List EventType → Option Err × W × List Call
  | w, [] => (none, w, [])
  | w, eventType :: rest =>
    match C.createEventType w ns eventType with
    | (Except.error err, w1) => (some err, w1, [Call.createEventType ns eventType])
    | (Except.ok _, w1) =>
      let r := createLoop C ns w1 rest
      (r.1, r.2.1, Call.createEventType ns eventType :: r.2.2)

/-- Go `Reconciler.reconcileEventTypes`. -/
def reconcileEventTypes {W : Type} (L : Helpers) (C : Collaborators W) (w : W)
    (src : SampleSource) : Outcome (Option Err) W :=
  let list := Call.listEventTypes src.meta.ns (L.Labels src.meta.name)
  match getEventTypes L C w src with
  | Except.error err => { result := some err, world := w, calls := [list] }
  | Except.ok current =>
    let expected := makeEventTypes L src
    let diff := computeDiff current expected
    match deleteLoop C src.meta.ns w diff.2 with
    | (some err, w1, dels) => { result := some err, world := w1, calls := list :: dels }
    | (none, w1, dels) =>
      let r := createLoop C src.meta.ns w1 diff.1
      { result := r.1, world := r.2.1, calls := list :: (dels ++ r.2.2) }

/-! ## The reconcile orchestrator -/

/-- Go `SampleSourceStatus.PropagateDeploymentAvailability`. -/
def SampleSourceStatus.PropagateDeploymentAvailability (L : Helpers)
    (s : SampleSourceStatus) (d : Deployment) : SampleSourceStatus :=
  if L.DeploymentIsAvailable d.status false = true then
    { s with conditions := CondSet.MarkTrue s.conditions SampleConditionDeployed }
  else
    { s with conditions := (CondSet.MarkFalse s.conditions SampleConditionDeployed
        "DeploymentUnavailable" ("The Deployment \x27" ++ d.meta.name ++ "\x27 is unavailable.")) }

/-- The destination `reconcile` hands to the resolver: a copy of `spec.sink`
whose empty reference namespace is replaced by the namespace of the source. -/
def normalizeDestination (sink : Destination) (source : SampleSource) : Destination :=
  match sink.ref with
  | some ref =>
    if ref.ns = "" then { sink with ref := some { ref with ns := source.meta.ns } } else sink
  | none =>
    if sink.deprecatedName ≠ "" ∧ sink.deprecatedNamespace = "" then
      { sink with deprecatedNamespace := source.meta.ns }
    else sink

/-- The test of `reconcile` for the deprecated reference fields. -/
def usesDeprecatedRef (sink : Destination) : Bool :=
  decide (sink.deprecatedAPIVersion ≠ "") && decide (sink.deprecatedKind ≠ "") &&
    decide (sink.deprecatedName ≠ "")

/-- Go `Reconciler.reconcile`. The result is the returned error (if any) and
the source with its mutated status. -/
def reconcile {W : Type} (L : Helpers) (C : Collaborators W) (image : String)
    (w : W) (source : SampleSource) : Outcome (Option Err × SampleSource) W :=
  let source := { source with status := source.status.InitializeConditions }
  match source.spec.sink with
  | none =>
    { result := (some Err.sinkMissing,
        { source with status := source.status.MarkNoSink "SinkMissing" "" }),
      world := w, calls := [] }
  | some sink =>
    let dest := normalizeDestination sink source
    match C.URIFromDestination w dest source with
    | Except.error err =>
      { result := (some err, { source with status := source.status.MarkNoSink "NotFound" "" }),
        world := w, calls := [Call.resolveSink dest] }
    | Except.ok sinkURI =>
      let marked :=
        if usesDeprecatedRef sink = true then source.status.MarkSinkWarnRefDeprecated sinkURI
        else source.status.MarkSink sinkURI
      let source := { source with status := marked.MarkSink sinkURI }
      let ra := createReceiveAdapter L C image w source sinkURI
      match ra.result with
      | Except.error err =>
        { result := (some err, source), world := ra.world,
          calls := Call.resolveSink dest :: ra.calls }
      | Except.ok d =>
        let source :=
          { source with status := source.status.PropagateDeploymentAvailability L d }
        let ets := reconcileEventTypes L C ra.world source
        match ets.result with
        | some err =>
          { result := (some err,
              { source with status :=
                  source.status.MarkNoEventTypes "EventTypesReconcileFailed" "" }),
            world := ets.world, calls := Call.resolveSink dest :: (ra.calls ++ ets.calls) }
        | none =>
          { result := (none, { source with status := source.status.MarkEventTypes }),
            world := ets.world, calls := Call.resolveSink dest :: (ra.calls ++ ets.calls) }

/-! ## Status persistence -/

/-- Go `Reconciler.updateStatus`. -/
def updateStatus {W : Type} (C : Collaborators W) (w : W) (desired : SampleSource) :
    Outcome (Except Err SampleSource) W :=
  let get := Call.getSampleSource desired.meta.ns desired.meta.name
  match C.getSampleSource w desired.meta.ns desired.meta.name with
  | Except.error err => { result := Except.error err, world := w, calls := [get] }
  | Except.ok samplesource =>
    if samplesource.status = desired.status then
      { result := Except.ok samplesource, world := w, calls := [get] }
    else
      let becomesReady := desired.status.IsReady && !samplesource.status.IsReady
      let existing := { samplesource with status := desired.status }
      let write := Call.updateStatus desired.meta.ns existing
      match C.updateStatus w desired.meta.ns existing with
      | (Except.ok cj, w1) =>
        if becomesReady = true then
          { result := Except.ok cj, world := w1,
            calls := [get, write, Call.recordEvent samplesourceReadinessChanged,
                      Call.reportReady samplesource.meta.ns samplesource.meta.name] }
        else
          { result := Except.ok cj, world := w1, calls := [get, write] }
      | (Except.error err, w1) =>
        { result := Except.error err, world := w1, calls := [get, write] }

/-! ## Applying a plan of store operations -/

/-- An operation on the event-type store. -/
inductive StoreOp where
  | delete (name : String)
  | create (et : EventType)
deriving DecidableEq, Repr

/-- The call an operation issues. -/
def StoreOp.call (ns : String) : StoreOp → Call
  | StoreOp.delete name => Call.deleteEventType ns name
  | StoreOp.create et => Call.createEventType ns et

/-- Executing one operation: the error if it fails, and the new world. -/
def StoreOp.exec {W : Type} (C : Collaborators W) (ns : String) (w : W) :
    StoreOp → Option Err × W
  | StoreOp.delete name => C.deleteEventType w ns name
  | StoreOp.create et =>
    match C.createEventType w ns et with
    | (Except.error err, w1) => (some err, w1)
    | (Except.ok _, w1) => (none, w1)

/-- The reference behaviour of the spec for applying operations: issue them in
order; a single failure aborts the remaining operations and is propagated. -/
def abortOnFirstFailure {W : Type} (C : Collaborators W) (ns : String) :
    W → List StoreOp → Option Err × W × List Call
  | w, [] => (none, w, [])
  | w, op :: rest =>
    match op.exec C ns w with
    | (some err, w1) => (some err, w1, [op.call ns])
    | (none, w1) =>
      let r := abortOnFirstFailure C ns w1 rest
      (r.1, r.2.1, op.call ns :: r.2.2)

/-- The plan the spec prescribes for a diff `(toCreate, toDelete)`: every
deletion, in order, then every creation, in order. -/
def diffPlan (diff : List EventType × List EventType) : List StoreOp :=
  diff.2.map (fun et => StoreOp.delete et.meta.name) ++ diff.1.map StoreOp.create

/-- A call is a Create on the event-type store. -/
def Call.isCreateEventType : Call → Bool
  | Call.createEventType _ _ => true
  | _ => false

/-- A call is a Delete on the event-type store. -/
def Call.isDeleteEventType : Call → Bool
  | Call.deleteEventType _ _ => true
  | _ => false

/-- A deployment store that returns what was last created or updated: a Get
answers with an object of the requested name, and after a successful Create or
Update of `d` the Get of the name of `d` answers `d`. -/
def ReturnsLastWritten {W : Type} (C : Collaborators W) : Prop :=
  (∀ w ns name d, C.getDeployment w ns name = Except.ok d → d.meta.name = name) ∧
  (∀ w ns d r w1, C.createDeployment w ns d = (Except.ok r, w1) →
    C.getDeployment w1 ns d.meta.name = Except.ok d) ∧
  (∀ w ns d r w1, C.updateDeployment w ns d = (Except.ok r, w1) →
    C.getDeployment w1 ns d.meta.name = Except.ok d)

/-- A status store in which every write succeeds and becomes the persisted
status: where the lister answers `p`, writing `p` with another status succeeds
and the lister then answers `p` with that status. -/
def StatusWritesPersist {W : Type} (C : Collaborators W) : Prop :=
  ∀ (w : W) (p : SampleSource) (s : SampleSourceStatus),
    C.getSampleSource w p.meta.ns p.meta.name = Except.ok p →
    ∃ cj w1, C.updateStatus w p.meta.ns { p with status := s } = (Except.ok cj, w1) ∧
      C.getSampleSource w1 p.meta.ns p.meta.name = Except.ok { p with status := s }

/-! ## An in-memory world

A concrete instance of the collaborators, used to run the reconciler on
examples: the deployment and event-type stores return what was last written,
and the status store makes every written status the persisted one. -/

/-- The state of the in-memory collaborators. -/
structure MemWorld where
  deployments : List Deployment
  eventTypes : List EventType
  source : Option SampleSource
deriving DecidableEq, Repr

/-- The not-found error of the in-memory stores. -/
def memNotFound : Err := Err.api true "not found"

/-- The in-memory collaborators. -/
def memCollab : Collaborators MemWorld where
  URIFromDestination := fun _ dest _ =>
    match dest.uri with
    | some u => Except.ok u
    | none =>
      match dest.ref with
      | some r => Except.ok ("http://" ++ r.name ++ "." ++ r.ns ++ ".svc.cluster.local")
      | none =>
        if dest.deprecatedName ≠ "" then
          Except.ok ("http://" ++ dest.deprecatedName ++ "." ++ dest.deprecatedNamespace ++
            ".svc.cluster.local")
        else Except.error (Err.api false "destination missing Ref and URI")
  getDeployment := fun w ns name =>
    match w.deployments.find? (fun d => decide (d.meta.ns = ns ∧ d.meta.name = name)) with
    | some d => Except.ok d
    | none => Except.error memNotFound
  createDeployment := fun w ns d =>
    if d.meta.ns = ns ∧
        (w.deployments.find? (fun x => decide (x.meta.ns = ns ∧ x.meta.name = d.meta.name))) = none
    then (Except.ok d, { w with deployments := w.deployments ++ [d] })
    else (Except.error (Err.api false "namespace mismatch or already exists"), w)
  updateDeployment := fun w ns d =>
    if d.meta.ns = ns ∧
        (w.deployments.find? (fun x => decide (x.meta.ns = ns ∧ x.meta.name = d.meta.name))) ≠ none
    then
      (Except.ok d,
        { w with deployments := w.deployments.map (fun x =>
            if x.meta.ns = ns ∧ x.meta.name = d.meta.name then d else x) })
    else (Except.error memNotFound, w)
  listEventTypes := fun w ns selector =>
    Except.ok (w.eventTypes.filter (fun et =>
      decide (et.meta.ns = ns) && selector.all (fun l => decide (l ∈ et.meta.labels))))
  deleteEventType := fun w ns name =>
    if (w.eventTypes.find? (fun et => decide (et.meta.ns = ns ∧ et.meta.name = name))) = none
    then (some memNotFound, w)
    else
      (none, { w with eventTypes := w.eventTypes.filter (fun et =>
        decide (¬ (et.meta.ns = ns ∧ et.meta.name = name))) })
  createEventType := fun w ns et =>
    if et.meta.ns = ns then (Except.ok et, { w with eventTypes := w.eventTypes ++ [et] })
    else (Except.error (Err.api false "namespace mismatch"), w)
  getSampleSource := fun w ns name =>
    match w.source with
    | some p => if p.meta.ns = ns ∧ p.meta.name = name then Except.ok p
                else Except.error memNotFound
    | none => Except.error memNotFound
  updateStatus := fun w ns src =>
    match w.source with
    | some p =>
      if p.meta.ns = ns ∧ p.meta.name = src.meta.name then
        (Except.ok { p with status := src.status },
          { w with source := some { p with status := src.status } })
      else (Except.error memNotFound, w)
    | none => (Except.error memNotFound, w)

/-- Example helpers: the labels, names and event types of a sample source. -/
def sampleHelpers : Helpers where
  GenerateFixedName := fun owner pre => pre ++ "-" ++ owner.uid
  Labels := fun name =>
    [("knative-eventing-source", "sample-source-controller"),
     ("knative-eventing-source-name", name)]
  MakeEventType := fun args =>
    { meta := { ns := args.src.meta.ns, name := "", uid := "",
                labels := [("knative-eventing-source", "sample-source-controller"),
                           ("knative-eventing-source-name", args.src.meta.name)],
                ownerReferences := [NewControllerRef args.src] },
      spec := { type := args.type, source := args.source, schema := "",
                broker := (match args.src.spec.sink with
                           | some d => (match d.ref with | some r => r.name | none => d.deprecatedName)
                           | none => ""),
                description := "" } }
  SampleSourceEventType := "dev.knative.sample"
  GetRef := fun dest =>
    match dest with
    | none => none
    | some d =>
      match d.ref with
      | some r => some r
      | none =>
        if d.deprecatedAPIVersion = "" ∧ d.deprecatedKind = "" ∧ d.deprecatedName = "" ∧
            d.deprecatedNamespace = "" then none
        else some { kind := d.deprecatedKind, ns := d.deprecatedNamespace,
                    name := d.deprecatedName, apiVersion := d.deprecatedAPIVersion }
  DeploymentIsAvailable := fun st dflt =>
    match st.conditions.find? (fun c => decide (c.1 = "Available")) with
    | some c => decide (c.2 = "True")
    | none => dflt

/-- The empty status. -/
def emptyStatus : SampleSourceStatus :=
  { observedGeneration := 0, conditions := [], sinkURI := "" }

/-- Example source `default/src` with the given sink. -/
def sampleSource (sink : Option Destination) : SampleSource :=
  { meta := { ns := "default", name := "src", uid := "uid-1", labels := [],
              ownerReferences := [] },
    spec := { serviceAccountName := "", interval := "10s", sink := sink },
    status := emptyStatus }

/-- The empty in-memory world. -/
def emptyWorld : MemWorld := { deployments := [], eventTypes := [], source := none }

/-- A sink given by the deprecated reference fields. -/
def deprecatedSink : Destination :=
  { ref := none, deprecatedAPIVersion := "v1", deprecatedKind := "Service",
    deprecatedName := "sink", deprecatedNamespace := "", uri := none }

/-- A sink given by a reference to a broker. -/
def brokerSink : Destination :=
  { ref := some { kind := "Broker", ns := "default", name := "br",
                  apiVersion := "eventing.knative.dev/v1alpha1" },
    deprecatedAPIVersion := "", deprecatedKind := "", deprecatedName := "",
    deprecatedNamespace := "", uri := none }

/-- A sink given by a reference to a service. -/
def serviceSink : Destination :=
  { ref := some { kind := "Service", ns := "default", name := "sink", apiVersion := "v1" },
    deprecatedAPIVersion := "", deprecatedKind := "", deprecatedName := "",
    deprecatedNamespace := "", uri := none }

/-- A deployment with the name derived for `sampleSource`, controlled by
another owner. -/
def foreignDeployment : Deployment :=
  { meta := { ns := "default", name := "samplesource-src-uid-1", uid := "", labels := [],
              ownerReferences :=
                [ { apiVersion := "apps/v1", kind := "Other", name := "other", uid := "uid-2",
                    controller := some true, blockOwnerDeletion := some true } ] },
    spec := { selector := [], replicas := some 1,
              template := { labels := [],
                            spec := { serviceAccountName := "", containers := [],
                                      restartPolicy := "Always", dnsPolicy := "" } } },
    status := { conditions := [] } }

/-- A world whose deployment store holds `foreignDeployment`. -/
def foreignWorld : MemWorld :=
  { deployments := [foreignDeployment], eventTypes := [], source := none }

/-- The pod spec `MakeReceiveAdapter` computes for `default/src`. -/
def samplePodSpec : PodSpec :=
  (expectedDeployment sampleHelpers "img" (sampleSource (some serviceSink))
    "http://sink").spec.template.spec

/-- A stored event type controlled by `default/src`, with an outdated
description. -/
def oldEventType : EventType :=
  { meta := { ns := "default", name := "et-old", uid := "",
              labels := sampleHelpers.Labels "src",
              ownerReferences := [NewControllerRef (sampleSource none)] },
    spec := { type := "dev.knative.sample", source := "default/src", schema := "",
              broker := "br", description := "old" } }

/-- A world whose event-type store holds `oldEventType`. -/
def eventTypeWorld : MemWorld :=
  { deployments := [], eventTypes := [oldEventType], source := none }

/-! ## Readiness notification -/

/-- A call is part of the readiness notification: the readiness-changed event
or the time-to-ready metric. -/
def Call.isReadinessNotification : Call → Bool
  | Call.recordEvent reason => decide (reason = samplesourceReadinessChanged)
  | Call.reportReady _ _ => true
  | _ => false

/-- A call is a status write. -/
def Call.isStatusWrite : Call → Bool
  | Call.updateStatus _ _ => true
  | _ => false

/-- Successive reconciles seen from status persistence: `updateStatus` is run
once per computed status, on the source carrying that status, each run in the
world left by the previous one. Yields the calls of every run. -/
def runUpdates {W : Type} (C : Collaborators W) (w : W) (p : SampleSource) :
    List SampleSourceStatus → List (List Call)
  | [] => []
  | s :: rest =>
    (updateStatus C w { p with status := s }).calls ::
      runUpdates C (updateStatus C w { p with status := s }).world p rest

/-- A ready status with the given sink URI: the three tracked conditions are
True. -/
def readyStatus (uri : String) : SampleSourceStatus :=
  (((emptyStatus.MarkSink uri).PropagateDeploymentAvailability
      { sampleHelpers with DeploymentIsAvailable := fun _ _ => true }
      foreignDeployment).MarkEventTypes)

/-- A world whose status store holds `default/src` with the empty status. -/
def persistedWorld : MemWorld :=
  { deployments := [], eventTypes := [], source := some (sampleSource (some serviceSink)) }

/-! ## Keys and order of the diff, as the specification words them -/

/-- Two descriptors have equal type, equal source, equal schema and equal
broker. -/
def sameIdentity (a b : EventType) : Prop :=
  a.spec.type = b.spec.type ∧ a.spec.source = b.spec.source ∧
    a.spec.schema = b.spec.schema ∧ a.spec.broker = b.spec.broker

/-- A descriptor of type `com.example.order_created` from source `shop`. -/
def orderCreated : EventType :=
  mkEventType "et-a" "com.example.order_created" "shop" "" "br" ""

/-- A descriptor of type `com.example.order` from source `created_shop`. -/
def orderFromCreatedShop : EventType :=
  mkEventType "et-b" "com.example.order" "created_shop" "" "br" ""

/-- No descriptor of the list has the key `k`. -/
def keyAbsent (l : List EventType) (k : String) : Bool :=
  l.all (fun x => decide (keyFromEventType x ≠ k))

/-- The current descriptor with the key `k`: the one a lookup keyed by
`keyFromEventType` holds, which is the last of the list when several share the
key. -/
def currentWithKey (current : List EventType) (k : String) : Option EventType :=
  (current.filter (fun c => decide (keyFromEventType c = k))).getLast?

/-- A desired descriptor is a creation: its key is absent from `current`, or
its spec differs from the spec of the current descriptor with its key. -/
def isCreationByOrder (current : List EventType) (e : EventType) : Bool :=
  keyAbsent current (keyFromEventType e) ||
    (match currentWithKey current (keyFromEventType e) with
     | some c => decide (e.spec ≠ c.spec)
     | none => false)

/-- For a desired descriptor whose spec differs from the spec of the current
descriptor with its key: that current descriptor. -/
def replacedByOrder (current : List EventType) (e : EventType) : Option EventType :=
  match currentWithKey current (keyFromEventType e) with
  | some c => if e.spec ≠ c.spec then some c else none
  | none => none

/-- The diff as the specification words it, by list order. `toCreate` is the
sub-list of `desired` of the creations; `toDelete` is the replaced current
descriptors, in the order of `desired`, followed by the sub-list of `current`
of the descriptors whose key is absent from `desired`. -/
def diffByOrder (current desired : List EventType) : List EventType × List EventType :=
  (desired.filter (isCreationByOrder current),
   desired.filterMap (replacedByOrder current) ++
     current.filter (fun c => keyAbsent desired (keyFromEventType c)))

/-- A stored event type controlled by `default/src` that does not carry the
labels of the source. -/
def unlabeledEventType : EventType :=
  { meta := { ns := "default", name := "et-unlabeled", uid := "", labels := [],
              ownerReferences := [NewControllerRef (sampleSource none)] },
    spec := { type := "dev.knative.sample", source := "default/src", schema := "",
              broker := "br", description := "" } }

/-- A world whose event-type store holds `unlabeledEventType`. -/
def unlabeledWorld : MemWorld :=
  { deployments := [], eventTypes := [unlabeledEventType], source := none }

/-! # Theorems -/

/-! ## The diff engine -/

theorem asMap_append_singleton (l : List EventType) (x : EventType)
    (kf : EventType → String) (k : String) :
    asMap (l ++ [x]) kf k = if k = kf x then some x else asMap l kf k := by
  simp [asMap, List.foldl_append]

theorem asMap_nil (kf : EventType → String) (k : String) : asMap [] kf k = none := rfl

theorem asMap_some_mem (l : List EventType) (kf : EventType → String) (k : String)
    (c : EventType) (h : asMap l kf k = some c) : c ∈ l ∧ kf c = k := by
  induction l using List.reverseRecOn with
  | nil => simp [asMap_nil] at h
  | append_singleton l x ih =>
    rw [asMap_append_singleton] at h
    by_cases hk : k = kf x
    · rw [if_pos hk] at h
      cases h
      exact ⟨by simp, hk.symm⟩
    · rw [if_neg hk] at h
      exact ⟨by simp [(ih h).1], (ih h).2⟩

theorem asMap_eq_none_iff (l : List EventType) (kf : EventType → String) (k : String) :
    asMap l kf k = none ↔ ∀ c ∈ l, kf c ≠ k := by
  induction l using List.reverseRecOn with
  | nil => simp [asMap_nil]
  | append_singleton l x ih =>
    rw [asMap_append_singleton]
    by_cases hk : k = kf x
    · rw [if_pos hk]
      simp only [reduceCtorEq, false_iff, not_forall]
      exact ⟨x, by simp, fun h => h hk.symm⟩
    · rw [if_neg hk, ih]
      constructor
      · intro h c hc
        rcases List.mem_append.1 hc with hc | hc
        · exact h c hc
        · simp at hc; subst hc; exact fun h2 => hk h2.symm
      · intro h c hc
        exact h c (by simp [hc])

theorem foldl_diffExpectedStep (m : EventTypeMap) (l : List EventType)
    (acc : List EventType × List EventType) :
    l.foldl (diffExpectedStep m) acc =
      (acc.1 ++ l.filter (isCreation m), acc.2 ++ l.filterMap (replaced m)) := by
  induction l generalizing acc with
  | nil => simp
  | cons e l ih =>
    rw [List.foldl_cons, ih]
    unfold diffExpectedStep isCreation replaced
    cases hm : m (keyFromEventType e) with
    | none => simp [List.filter_cons, List.filterMap_cons, hm]
    | some c =>
      by_cases hs : e.spec = c.spec
      · simp [List.filter_cons, List.filterMap_cons, hm, hs]
      · simp [List.filter_cons, List.filterMap_cons, hm, hs]

theorem foldl_diffCurrentStep (m : EventTypeMap) (l acc : List EventType) :
    l.foldl (diffCurrentStep m) acc =
      acc ++ l.filter (fun c => (m (keyFromEventType c)).isNone) := by
  induction l generalizing acc with
  | nil => simp
  | cons c l ih =>
    rw [List.foldl_cons, ih]
    unfold diffCurrentStep
    cases hm : m (keyFromEventType c) <;> simp [List.filter_cons, hm]

theorem computeDiff_eq (current expected : List EventType) :
    computeDiff current expected =
      (expected.filter (isCreation (asMap current keyFromEventType)),
       expected.filterMap (replaced (asMap current keyFromEventType)) ++
         current.filter (fun c => (asMap expected keyFromEventType (keyFromEventType c)).isNone)) := by
  simp [computeDiff, foldl_diffExpectedStep, foldl_diffCurrentStep]

theorem mem_toCreate_iff (current expected : List EventType) (e : EventType) :
    e ∈ (computeDiff current expected).1 ↔
      e ∈ expected ∧ isCreation (asMap current keyFromEventType) e = true := by
  simp [computeDiff_eq, List.mem_filter]

theorem mem_toDelete_iff (current expected : List EventType) (c : EventType) :
    c ∈ (computeDiff current expected).2 ↔
      (∃ e ∈ expected, replaced (asMap current keyFromEventType) e = some c) ∨
      (c ∈ current ∧ asMap expected keyFromEventType (keyFromEventType c) = none) := by
  simp [computeDiff_eq, List.mem_filter, List.mem_filterMap]

theorem replaced_some (m : EventTypeMap) (e c : EventType) (h : replaced m e = some c) :
    m (keyFromEventType e) = some c ∧ e.spec ≠ c.spec := by
  unfold replaced at h
  cases hm : m (keyFromEventType e) with
  | none => simp [hm] at h
  | some c0 =>
    simp only [hm] at h
    by_cases hs : e.spec = c0.spec
    · simp [hs] at h
    · simp [hs] at h; subst h; exact ⟨rfl, hs⟩

/-- Applying the result of `computeDiff` to `current` yields a collection with
the same set of `keyFromEventType` keys as `desired`, for all lists. -/
theorem applyDiff_sameKeySet (current desired : List EventType) :
    sameKeySet (applyDiff current (computeDiff current desired).1 (computeDiff current desired).2)
      desired := by
  intro k
  simp only [applyDiff, List.map_append, List.mem_append, List.mem_map, List.mem_filter,
    decide_eq_true_eq]
  constructor
  · rintro (⟨x, ⟨hx, hnd⟩, rfl⟩ | ⟨x, hx, rfl⟩)
    · by_contra hne
      apply hnd
      rw [mem_toDelete_iff]
      right
      refine ⟨hx, ?_⟩
      rw [asMap_eq_none_iff]
      intro c hc hk
      exact hne ⟨c, hc, hk⟩
    · exact ⟨x, ((mem_toCreate_iff _ _ _).1 hx).1, rfl⟩
  · rintro ⟨y, hy, rfl⟩
    cases hm : asMap current keyFromEventType (keyFromEventType y) with
    | none =>
      right
      exact ⟨y, (mem_toCreate_iff _ _ _).2 ⟨hy, by simp [isCreation, hm]⟩, rfl⟩
    | some c =>
      obtain ⟨hc, hck⟩ := asMap_some_mem _ _ _ _ hm
      by_cases hs : y.spec = c.spec
      · by_cases hd : c ∈ (computeDiff current desired).2
        · rcases (mem_toDelete_iff _ _ _).1 hd with ⟨e, he, hr⟩ | ⟨_, hnone⟩
          · obtain ⟨hme, hne⟩ := replaced_some _ _ _ hr
            right
            refine ⟨e, (mem_toCreate_iff _ _ _).2 ⟨he, ?_⟩, ?_⟩
            · simp [isCreation, hme, hne]
            · rw [← hck]
              exact ((asMap_some_mem _ _ _ _ hme).2).symm
          · exfalso
            rw [asMap_eq_none_iff] at hnone
            exact hnone y hy hck.symm
        · left
          exact ⟨c, ⟨hc, hd⟩, hck⟩
      · right
        exact ⟨y, (mem_toCreate_iff _ _ _).2 ⟨hy, by simp [isCreation, hm, hs]⟩, rfl⟩

/-- C1, at the failing input. The stored descriptors `staleUnderscore`
(type `a_b`, source `c`) and `keptUnderscore` (type `a`, source `b_c`) have
different identity tuples and the same `keyFromEventType` key. With
`wantedUnderscore` (the tuple of `keptUnderscore`) as the only desired
descriptor, `computeDiff` returns nothing to create and nothing to delete, the
applied collection is `current` itself, and its set of identity tuples is not
the set of identity tuples of `desired`. -/
theorem computeDiff_key_collision :
    identityTuple staleUnderscore ≠ identityTuple keptUnderscore ∧
    keyFromEventType staleUnderscore = keyFromEventType keptUnderscore ∧
    computeDiff [staleUnderscore, keptUnderscore] [wantedUnderscore] = ([], []) ∧
    applyDiff [staleUnderscore, keptUnderscore]
        (computeDiff [staleUnderscore, keptUnderscore] [wantedUnderscore]).1
        (computeDiff [staleUnderscore, keptUnderscore] [wantedUnderscore]).2 =
      [staleUnderscore, keptUnderscore] ∧
    ¬ sameIdentitySet
        (applyDiff [staleUnderscore, keptUnderscore]
          (computeDiff [staleUnderscore, keptUnderscore] [wantedUnderscore]).1
          (computeDiff [staleUnderscore, keptUnderscore] [wantedUnderscore]).2)
        [wantedUnderscore] := by
  refine ⟨by decide, by decide, by decide, by decide, ?_⟩
  intro h
  exact absurd ((h (identityTuple staleUnderscore)).1 (by decide)) (by decide)

/-- C2, as amended. For every list `desired` in which any two descriptors with
the same key have the same spec, `computeDiff desired desired` returns an empty
`toCreate` and an empty `toDelete`. -/
theorem computeDiff_self (desired : List EventType)
    (h : ∀ a ∈ desired, ∀ b ∈ desired,
      keyFromEventType a = keyFromEventType b → a.spec = b.spec) :
    computeDiff desired desired = ([], []) := by
  rw [computeDiff_eq]
  have hsome : ∀ e ∈ desired, ∃ c, asMap desired keyFromEventType (keyFromEventType e) = some c ∧
      e.spec = c.spec := by
    intro e he
    cases hm : asMap desired keyFromEventType (keyFromEventType e) with
    | none =>
      rw [asMap_eq_none_iff] at hm
      exact absurd rfl (hm e he)
    | some c =>
      obtain ⟨hc, hck⟩ := asMap_some_mem _ _ _ _ hm
      exact ⟨c, rfl, h e he c hc hck.symm⟩
  have h1 : desired.filter (isCreation (asMap desired keyFromEventType)) = [] := by
    rw [List.filter_eq_nil_iff]
    intro e he
    obtain ⟨c, hm, hs⟩ := hsome e he
    simp [isCreation, hm, hs]
  have h2 : desired.filterMap (replaced (asMap desired keyFromEventType)) = [] := by
    rw [List.filterMap_eq_nil_iff]
    intro e he
    obtain ⟨c, hm, hs⟩ := hsome e he
    simp [replaced, hm, hs]
  have h3 : desired.filter
      (fun c => (asMap desired keyFromEventType (keyFromEventType c)).isNone) = [] := by
    rw [List.filter_eq_nil_iff]
    intro e he
    obtain ⟨c, hm, _⟩ := hsome e he
    simp [hm]
  rw [h1, h2, h3]
  rfl

/-- Witness of `computeDiff_self` on the two-element list
`[dupFirst, wantedUnderscore]`, whose keys are distinct. -/
theorem computeDiff_self_witness :
    (∀ a ∈ [dupFirst, wantedUnderscore], ∀ b ∈ [dupFirst, wantedUnderscore],
      keyFromEventType a = keyFromEventType b → a.spec = b.spec) ∧
    computeDiff [dupFirst, wantedUnderscore] [dupFirst, wantedUnderscore] = ([], []) :=
  ⟨by decide, computeDiff_self [dupFirst, wantedUnderscore] (by decide)⟩

/-- C2, as stated, fails: `dupFirst` and `dupSecond` have the same identity
tuple and different descriptions, and `computeDiff` of the list
`[dupFirst, dupSecond]` against itself asks to delete `dupSecond` and to
create `dupFirst`. -/
theorem computeDiff_self_duplicate_key :
    identityTuple dupFirst = identityTuple dupSecond ∧
    computeDiff [dupFirst, dupSecond] [dupFirst, dupSecond] = ([dupFirst], [dupSecond]) ∧
    ¬ (∀ desired : List EventType, computeDiff desired desired = ([], [])) := by
  refine ⟨by decide, by decide, ?_⟩
  intro h
  exact absurd (h [dupFirst, dupSecond]) (by decide)

/-- Where `keyFromEventType` separates the identity tuples of the descriptors
involved, applying the result of `computeDiff` yields the identity tuples of
`desired`. -/
theorem applyDiff_sameIdentitySet_of_injective (current desired : List EventType)
    (hinj : ∀ a ∈ current ++ desired, ∀ b ∈ current ++ desired,
      keyFromEventType a = keyFromEventType b → identityTuple a = identityTuple b) :
    sameIdentitySet
      (applyDiff current (computeDiff current desired).1 (computeDiff current desired).2)
      desired := by
  have hkeys := applyDiff_sameKeySet current desired
  have hsub : ∀ x ∈ applyDiff current (computeDiff current desired).1
      (computeDiff current desired).2, x ∈ current ++ desired := by
    intro x hx
    simp only [applyDiff, List.mem_append, List.mem_filter] at hx ⊢
    rcases hx with ⟨hx, _⟩ | hx
    · exact Or.inl hx
    · exact Or.inr ((mem_toCreate_iff _ _ _).1 hx).1
  intro k
  simp only [List.mem_map]
  constructor
  · rintro ⟨x, hx, rfl⟩
    obtain ⟨y, hy, hxy⟩ := List.mem_map.1 ((hkeys (keyFromEventType x)).1
      (List.mem_map.2 ⟨x, hx, rfl⟩))
    exact ⟨y, hy, hinj y (by simp [hy]) x (hsub x hx) hxy⟩
  · rintro ⟨y, hy, rfl⟩
    obtain ⟨x, hx, hxy⟩ := List.mem_map.1 ((hkeys (keyFromEventType y)).2
      (List.mem_map.2 ⟨y, hy, rfl⟩))
    exact ⟨x, hx, hinj x (hsub x hx) y (by simp [hy]) hxy⟩

/-- An empty diff of a list against itself forces equal specs under equal
keys. -/
theorem computeDiff_self_only_if (desired : List EventType)
    (h : computeDiff desired desired = ([], [])) :
    ∀ a ∈ desired, ∀ b ∈ desired,
      keyFromEventType a = keyFromEventType b → a.spec = b.spec := by
  have hstored : ∀ e ∈ desired, ∃ c,
      asMap desired keyFromEventType (keyFromEventType e) = some c ∧ e.spec = c.spec := by
    intro e he
    have hnot : ¬ e ∈ (computeDiff desired desired).1 := by rw [h]; simp
    rw [mem_toCreate_iff] at hnot
    cases hm : asMap desired keyFromEventType (keyFromEventType e) with
    | none => exact absurd ⟨he, by simp [isCreation, hm]⟩ hnot
    | some c =>
      refine ⟨c, rfl, ?_⟩
      by_contra hs
      exact hnot ⟨he, by simp [isCreation, hm, hs]⟩
  intro a ha b hb hk
  obtain ⟨ca, hca, hsa⟩ := hstored a ha
  obtain ⟨cb, hcb, hsb⟩ := hstored b hb
  rw [hk, hcb] at hca
  cases hca
  rw [hsa, hsb]

/-! ## Conditions -/

theorem GetCondition_SetCondition (conds : List Condition) (new : Condition) (t : String) :
    CondSet.GetCondition (CondSet.SetCondition conds new) t =
      if new.type = t then some new else CondSet.GetCondition conds t := by
  unfold CondSet.GetCondition CondSet.SetCondition
  induction conds with
  | nil =>
    by_cases h : new.type = t <;> simp [h]
  | cons c cs ih =>
    by_cases hc : c.type = new.type
    · simp only [List.filter_cons, hc, ne_eq, not_true_eq_false, decide_False, Bool.false_eq_true,
        ↓reduceIte]
      rw [ih]
      by_cases h : new.type = t
      · simp [h]
      · have : ¬ c.type = t := by rw [hc]; exact h
        simp [h, this]
    · by_cases hct : c.type = t
      · have h1 : ¬ new.type = t := by rw [← hct]; exact fun h => hc h.symm
        have h2 : ¬ t = new.type := fun h => h1 h.symm
        simp [List.filter_cons, hct, h1, h2]
      · simp only [List.filter_cons, hc, ne_eq, not_false_eq_true, decide_True, ↓reduceIte,
          List.cons_append, List.find?_cons, hct, decide_False]
        exact ih

theorem IsHappy_false_of_not_true (tracked : List String) (conds : List Condition) (t : String)
    (c : Condition) (ht : t ∈ tracked) (hc : CondSet.GetCondition conds t = some c)
    (hs : c.status ≠ ConditionStatus.ConditionTrue) : CondSet.IsHappy tracked conds = false := by
  unfold CondSet.IsHappy
  rw [Bool.eq_false_iff]
  intro hall
  rw [List.all_eq_true] at hall
  have := hall t ht
  simp [hc, hs] at this

/-- C3. For every SampleSource whose `spec.sink` is nil, `reconcile` returns the
error `spec.sink missing`, leaves the SinkProvided condition False with reason
`SinkMissing`, leaves the status not ready, issues no call at all to any
collaborator (no Get, Create or Update on the deployment store, no call to the
sink resolver, none to the event-type store) and leaves the world unchanged. -/
theorem reconcile_sink_missing {W : Type} (L : Helpers) (C : Collaborators W) (image : String)
    (w : W) (source : SampleSource) (h : source.spec.sink = none) :
    (reconcile L C image w source).result.1 = some Err.sinkMissing ∧
    (∃ c, (reconcile L C image w source).result.2.status.GetCondition
        SampleConditionSinkProvided = some c ∧
      c.status = ConditionStatus.ConditionFalse ∧ c.reason = "SinkMissing") ∧
    (reconcile L C image w source).result.2.status.IsReady = false ∧
    (reconcile L C image w source).calls = [] ∧
    (reconcile L C image w source).world = w := by
  have hr : reconcile L C image w source =
      { result := (some Err.sinkMissing,
          { source with status :=
              (source.status.InitializeConditions).MarkNoSink "SinkMissing" "" }),
        world := w, calls := [] } := by
    simp [reconcile, h]
  have hget : ((source.status.InitializeConditions).MarkNoSink "SinkMissing" "").GetCondition
      SampleConditionSinkProvided =
      some { type := SampleConditionSinkProvided, status := ConditionStatus.ConditionFalse,
             severity := ConditionSeverity.Error, reason := "SinkMissing", message := "" } := by
    simp [SampleSourceStatus.GetCondition, SampleSourceStatus.MarkNoSink, CondSet.MarkFalse,
      GetCondition_SetCondition]
  rw [hr]
  refine ⟨rfl, ⟨_, hget, rfl, rfl⟩, ?_, rfl, rfl⟩
  exact IsHappy_false_of_not_true SampleCondSet _ SampleConditionSinkProvided _
    (by simp [SampleCondSet]) hget (by decide)

/-- Witness of `reconcile_sink_missing`: the source `default/src` without a
sink, run against the in-memory collaborators. -/
theorem reconcile_sink_missing_witness :
    (sampleSource none).spec.sink = none ∧
    (reconcile sampleHelpers memCollab "img" emptyWorld (sampleSource none)).result.1 =
      some Err.sinkMissing ∧
    (reconcile sampleHelpers memCollab "img" emptyWorld (sampleSource none)).result.2.status.IsReady
      = false ∧
    (reconcile sampleHelpers memCollab "img" emptyWorld (sampleSource none)).calls = [] :=
  have h := reconcile_sink_missing sampleHelpers memCollab "img" emptyWorld (sampleSource none) rfl
  ⟨rfl, h.1, h.2.2.1, h.2.2.2.1⟩

/-! ## Deployment convergence -/

/-- C4. For every SampleSource and every deployment store in which a deployment
with the derived name exists (the Get returns it) and is not controlled by the
source, `createReceiveAdapter` returns the ownership-conflict error and no
deployment, issues the Get and nothing else (neither a Create nor an Update),
and leaves the world unchanged, whatever the existing deployment (its pod spec
included) is. -/
theorem createReceiveAdapter_not_owned {W : Type} (L : Helpers) (C : Collaborators W)
    (image : String) (w : W) (src : SampleSource) (sinkURI : String) (ra : Deployment)
    (hget : C.getDeployment w src.meta.ns (expectedDeployment L image src sinkURI).meta.name =
      Except.ok ra)
    (hown : IsControlledBy ra.meta src.meta = false) :
    (createReceiveAdapter L C image w src sinkURI).result =
      Except.error (Err.notOwned ra.meta.name src.meta.name) ∧
    (createReceiveAdapter L C image w src sinkURI).calls =
      [Call.getDeployment src.meta.ns (expectedDeployment L image src sinkURI).meta.name] ∧
    (createReceiveAdapter L C image w src sinkURI).world = w := by
  simp [createReceiveAdapter, hget, hown]

/-- Witness of `createReceiveAdapter_not_owned`: the store holds
`foreignDeployment` under the name derived for `default/src`. -/
theorem createReceiveAdapter_not_owned_witness :
    memCollab.getDeployment foreignWorld (sampleSource (some serviceSink)).meta.ns
        (expectedDeployment sampleHelpers "img" (sampleSource (some serviceSink))
          "http://sink").meta.name = Except.ok foreignDeployment ∧
    IsControlledBy foreignDeployment.meta (sampleSource (some serviceSink)).meta = false ∧
    (createReceiveAdapter sampleHelpers memCollab "img" foreignWorld
        (sampleSource (some serviceSink)) "http://sink").result =
      Except.error (Err.notOwned "samplesource-src-uid-1" "src") ∧
    (createReceiveAdapter sampleHelpers memCollab "img" foreignWorld
        (sampleSource (some serviceSink)) "http://sink").calls =
      [Call.getDeployment "default" "samplesource-src-uid-1"] :=
  have h := createReceiveAdapter_not_owned sampleHelpers memCollab "img" foreignWorld
    (sampleSource (some serviceSink)) "http://sink" foreignDeployment rfl (by decide)
  ⟨rfl, by decide, h.1, h.2.1⟩

/-! ## Pod spec drift -/

theorem zip_any_iff {α : Type} (P : α × α → Bool) (a b : List α) :
    (List.zip a b).any P = true ↔
      ∃ i, ∃ (h1 : i < a.length) (h2 : i < b.length), P (a[i], b[i]) = true := by
  induction a generalizing b with
  | nil => simp
  | cons x xs ih =>
    cases b with
    | nil => simp
    | cons y ys =>
      simp only [List.zip_cons_cons, List.any_cons, Bool.or_eq_true, ih, List.length_cons]
      constructor
      · rintro (h | ⟨i, h1, h2, h⟩)
        · exact ⟨0, by omega, by omega, h⟩
        · exact ⟨i + 1, by omega, by omega, h⟩
      · rintro ⟨i, h1, h2, h⟩
        cases i with
        | zero => exact Or.inl h
        | succ k => exact Or.inr ⟨k, by omega, by omega, h⟩

/-- `podSpecChanged` answers false exactly when the new spec derives from the
old one, the container counts agree and every container has the same
environment list in both. -/
theorem podSpecChanged_eq_false_iff (old new : PodSpec) :
    podSpecChanged old new = false ↔
      DeepDerivative.podSpec new old = true ∧
      old.containers.length = new.containers.length ∧
      ∀ i, ∀ (h1 : i < new.containers.length) (h2 : i < old.containers.length),
        (new.containers[i]).env = (old.containers[i]).env := by
  unfold podSpecChanged
  by_cases hd : DeepDerivative.podSpec new old = true
  · by_cases hl : old.containers.length = new.containers.length
    · simp only [hd, not_true_eq_false, ↓reduceIte, hl, ne_eq, true_and]
      rw [Bool.eq_false_iff, Ne, zip_any_iff]
      constructor
      · intro h i h1 h2
        by_contra hne
        exact h ⟨i, by omega, by omega, by simpa using hne⟩
      · rintro h ⟨i, h1, h2, hP⟩
        have := h i (by omega) (by omega)
        simp [this] at hP
    · simp [hd, hl]
  · simp [hd]

theorem DeepDerivative.string_refl (a : String) : DeepDerivative.string a a = true := by
  simp [DeepDerivative.string]

theorem DeepDerivative.pointer_refl {α : Type} (f : α → α → Bool) (hf : ∀ x, f x x = true)
    (a : Option α) : DeepDerivative.pointer f a a = true := by
  cases a <;> simp [DeepDerivative.pointer, hf]

theorem DeepDerivative.zipWith_refl {α : Type} (f : α → α → Bool) (hf : ∀ x, f x x = true)
    (a : List α) : (List.zipWith f a a).all id = true := by
  induction a with
  | nil => rfl
  | cons x xs ih => simp [hf, ih]

theorem DeepDerivative.slice_refl {α : Type} (f : α → α → Bool) (hf : ∀ x, f x x = true)
    (a : List α) : DeepDerivative.slice f a a = true := by
  rw [DeepDerivative.slice, DeepDerivative.zipWith_refl f hf]
  simp

theorem DeepDerivative.envVar_refl (a : EnvVar) : DeepDerivative.envVar a a = true := by
  simp [DeepDerivative.envVar, DeepDerivative.string_refl]
  apply DeepDerivative.pointer_refl
  intro x
  simp only [DeepDerivative.envVarSource]
  apply DeepDerivative.pointer_refl
  intro y
  simp [DeepDerivative.objectFieldSelector, DeepDerivative.string_refl]

theorem DeepDerivative.container_refl (a : Container) : DeepDerivative.container a a = true := by
  simp [DeepDerivative.container, DeepDerivative.string_refl,
    DeepDerivative.slice_refl _ DeepDerivative.envVar_refl]

/-- A pod spec derives from itself. -/
theorem DeepDerivative.podSpec_refl (a : PodSpec) : DeepDerivative.podSpec a a = true := by
  simp [DeepDerivative.podSpec, DeepDerivative.string_refl,
    DeepDerivative.slice_refl _ DeepDerivative.container_refl]

theorem podSpecChanged_self (p : PodSpec) : podSpecChanged p p = false := by
  rw [podSpecChanged_eq_false_iff]
  exact ⟨DeepDerivative.podSpec_refl p, rfl, fun _ _ _ => rfl⟩

theorem DeepDerivative.zipWith_eraseLast {α : Type} (f : α → α → Bool)
    (hf : ∀ x, f x x = true) (l : List α) :
    (List.zipWith f (l.eraseIdx (l.length - 1)) l).all id = true := by
  induction l with
  | nil => rfl
  | cons x xs ih =>
    cases xs with
    | nil => rfl
    | cons y ys =>
      simp only [List.length_cons, Nat.add_sub_cancel, List.eraseIdx_cons_succ,
        List.zipWith_cons_cons, List.all_cons, hf, id, Bool.true_and]
      simpa using ih

theorem DeepDerivative.slice_eraseLast {α : Type} (f : α → α → Bool)
    (hf : ∀ x, f x x = true) (l : List α) :
    DeepDerivative.slice f (l.eraseIdx (l.length - 1)) l = true := by
  simp only [DeepDerivative.slice, Bool.or_eq_true, Bool.and_eq_true, decide_eq_true_eq]
  right
  exact ⟨List.length_eraseIdx_le _ _, DeepDerivative.zipWith_eraseLast f hf l⟩

theorem DeepDerivative.slice_modify {α : Type} (f : α → α → Bool) (g : α → α)
    (hf : ∀ x, f x x = true) (l : List α) (i : Nat)
    (hg : ∀ x, l[i]? = some x → f (g x) x = true) :
    DeepDerivative.slice f (l.modify g i) l = true := by
  simp only [DeepDerivative.slice, Bool.or_eq_true, Bool.and_eq_true, decide_eq_true_eq]
  right
  refine ⟨by simp, ?_⟩
  induction l generalizing i with
  | nil => simp
  | cons x xs ih =>
    cases i with
    | zero =>
      have h0 := hg x (by simp)
      have h1 := DeepDerivative.zipWith_refl f hf xs
      simp only [List.modify_zero_cons, List.zipWith_cons_cons, List.all_cons, h0, id,
        Bool.true_and]
      exact h1
    | succ k =>
      have h1 := ih k (fun y hy => hg y (by simpa using hy))
      simp only [List.modify_succ_cons, List.zipWith_cons_cons, List.all_cons, hf, id,
        Bool.true_and]
      exact h1

/-- Removing the last environment variable of a container yields a pod spec
that derives from the original one. -/
theorem DeepDerivative.podSpec_removeLast (p : PodSpec) (i : Nat)
    (hi : i < p.containers.length) :
    DeepDerivative.podSpec (removeEnvVar p i ((p.containers[i]).env.length - 1)) p = true := by
  simp only [DeepDerivative.podSpec, removeEnvVar, DeepDerivative.string_refl, Bool.true_and,
    Bool.and_true]
  apply DeepDerivative.slice_modify _ _ DeepDerivative.container_refl
  intro c hc
  rw [List.getElem?_eq_getElem hi] at hc
  cases hc
  simp [DeepDerivative.container, DeepDerivative.string_refl,
    DeepDerivative.slice_eraseLast _ DeepDerivative.envVar_refl]


/-- C5, as amended. (1) For every pod spec and every pod spec obtained from it
by removing one environment variable from one container (all else equal),
`podSpecChanged existing desired` is true. (2) It is true also where the
desired spec is a structural subset (`DeepDerivative`) of the existing one, as
it is whenever the removed variable is the last of its container. (3)
`podSpecChanged` is true whenever the container counts differ, and (4) whenever
some container has environment lists that are not equal in the two specs. -/
theorem podSpecChanged_detects_env_drift :
    (∀ (p : PodSpec) (i j : Nat) (hi : i < p.containers.length),
      j < (p.containers[i]).env.length → podSpecChanged p (removeEnvVar p i j) = true) ∧
    (∀ (p : PodSpec) (i : Nat) (hi : i < p.containers.length),
      0 < (p.containers[i]).env.length →
        DeepDerivative.podSpec (removeEnvVar p i ((p.containers[i]).env.length - 1)) p = true ∧
        podSpecChanged p (removeEnvVar p i ((p.containers[i]).env.length - 1)) = true) ∧
    (∀ old new : PodSpec, old.containers.length ≠ new.containers.length →
      podSpecChanged old new = true) ∧
    (∀ (old new : PodSpec) (k : Nat) (h1 : k < new.containers.length)
      (h2 : k < old.containers.length),
      (new.containers[k]).env ≠ (old.containers[k]).env → podSpecChanged old new = true) := by
  have general : ∀ (old new : PodSpec) (k : Nat) (h1 : k < new.containers.length)
      (h2 : k < old.containers.length),
      (new.containers[k]).env ≠ (old.containers[k]).env → podSpecChanged old new = true := by
    intro old new k h1 h2 hne
    by_contra hc
    rw [Bool.not_eq_true, podSpecChanged_eq_false_iff] at hc
    exact hne (hc.2.2 k h1 h2)
  have removed : ∀ (p : PodSpec) (i j : Nat) (hi : i < p.containers.length),
      j < (p.containers[i]).env.length → podSpecChanged p (removeEnvVar p i j) = true := by
    intro p i j hi hj
    have hlen : i < (removeEnvVar p i j).containers.length := by
      simp [removeEnvVar, hi]
    apply general p (removeEnvVar p i j) i hlen hi
    intro heq
    have h1 : ((removeEnvVar p i j).containers[i]).env = (p.containers[i]).env.eraseIdx j := by
      simp [removeEnvVar]
    rw [h1] at heq
    have h2 := congrArg List.length heq
    rw [List.length_eraseIdx_of_lt hj] at h2
    omega
  refine ⟨removed, ?_, ?_, general⟩
  · intro p i hi hpos
    exact ⟨DeepDerivative.podSpec_removeLast p i hi, removed p i _ hi (by omega)⟩
  · intro old new hl
    by_contra hc
    rw [Bool.not_eq_true, podSpecChanged_eq_false_iff] at hc
    exact hl hc.2.1

/-- Witness of `podSpecChanged_detects_env_drift`: dropping `K_LOGGING_CONFIG`,
the seventh and last variable of the receive adapter container. -/
theorem podSpecChanged_detects_env_drift_witness :
    DeepDerivative.podSpec (removeEnvVar samplePodSpec 0 6) samplePodSpec = true ∧
    podSpecChanged samplePodSpec (removeEnvVar samplePodSpec 0 6) = true :=
  podSpecChanged_detects_env_drift.2.1 samplePodSpec 0 (by decide) (by decide)

/-- C5, as stated, fails in its structural-subset part: removing `SINK_URI`,
the first of the seven variables of the receive adapter container, yields a
desired pod spec for which `podSpecChanged` is true and which is not a
`DeepDerivative` of the existing one, since the index-wise comparison meets
`EVENT_SOURCE` against `SINK_URI`. So a removal does not always leave a
structural subset. -/
theorem removeEnvVar_not_derivative :
    (samplePodSpec.containers.map (fun c => c.env.length)) = [7] ∧
    podSpecChanged samplePodSpec (removeEnvVar samplePodSpec 0 0) = true ∧
    DeepDerivative.podSpec (removeEnvVar samplePodSpec 0 0) samplePodSpec = false ∧
    ¬ (∀ (p : PodSpec) (i j : Nat) (hi : i < p.containers.length),
        j < (p.containers[i]).env.length →
          podSpecChanged p (removeEnvVar p i j) = true ∧
          DeepDerivative.podSpec (removeEnvVar p i j) p = true) := by
  refine ⟨by decide, by decide, by decide, ?_⟩
  intro h
  have h0 := (h samplePodSpec 0 0 (by decide) (by decide)).2
  exact absurd h0 (by decide)

theorem IsControlledBy_expected (L : Helpers) (image : String) (src : SampleSource)
    (sinkURI : String) :
    IsControlledBy (expectedDeployment L image src sinkURI).meta src.meta = true := by
  simp [IsControlledBy, GetControllerOf, expectedDeployment, MakeReceiveAdapter, NewControllerRef]

/-- C6. Over a deployment store that returns what was last created or updated,
for every source, image and sink URI: if `createReceiveAdapter` has run once
successfully, a second run with the same arguments finds the stored deployment,
`podSpecChanged` of its pod spec against the recomputed desired one is false,
the run returns that existing deployment, and it issues the Get and nothing
else (no Create, no Update), leaving the world unchanged. -/
theorem createReceiveAdapter_idempotent {W : Type} (L : Helpers) (C : Collaborators W)
    (hstore : ReturnsLastWritten C) (image : String) (w : W) (src : SampleSource)
    (sinkURI : String) (d1 : Deployment)
    (hrun : (createReceiveAdapter L C image w src sinkURI).result = Except.ok d1) :
    ∃ existing,
      C.getDeployment (createReceiveAdapter L C image w src sinkURI).world src.meta.ns
        (expectedDeployment L image src sinkURI).meta.name = Except.ok existing ∧
      podSpecChanged existing.spec.template.spec
        (expectedDeployment L image src sinkURI).spec.template.spec = false ∧
      (createReceiveAdapter L C image
        (createReceiveAdapter L C image w src sinkURI).world src sinkURI).result =
          Except.ok existing ∧
      (createReceiveAdapter L C image
        (createReceiveAdapter L C image w src sinkURI).world src sinkURI).calls =
          [Call.getDeployment src.meta.ns (expectedDeployment L image src sinkURI).meta.name] ∧
      (createReceiveAdapter L C image
        (createReceiveAdapter L C image w src sinkURI).world src sinkURI).world =
          (createReceiveAdapter L C image w src sinkURI).world := by
  obtain ⟨hG, hC, hU⟩ := hstore
  -- what a run does once the Get has answered with a controlled, unchanged deployment
  have second : ∀ (w1 : W) (existing : Deployment),
      C.getDeployment w1 src.meta.ns (expectedDeployment L image src sinkURI).meta.name =
        Except.ok existing →
      IsControlledBy existing.meta src.meta = true →
      podSpecChanged existing.spec.template.spec
        (expectedDeployment L image src sinkURI).spec.template.spec = false →
      (createReceiveAdapter L C image w1 src sinkURI).result = Except.ok existing ∧
      (createReceiveAdapter L C image w1 src sinkURI).calls =
        [Call.getDeployment src.meta.ns (expectedDeployment L image src sinkURI).meta.name] ∧
      (createReceiveAdapter L C image w1 src sinkURI).world = w1 := by
    intro w1 existing hget hown hsame
    simp [createReceiveAdapter, hget, hown, hsame]
  cases hget : C.getDeployment w src.meta.ns (expectedDeployment L image src sinkURI).meta.name with
  | error err =>
    by_cases hnf : err.IsNotFound = true
    · have hw : createReceiveAdapter L C image w src sinkURI =
          { result := (C.createDeployment w src.meta.ns (expectedDeployment L image src sinkURI)).1,
            world := (C.createDeployment w src.meta.ns (expectedDeployment L image src sinkURI)).2,
            calls := [Call.getDeployment src.meta.ns (expectedDeployment L image src sinkURI).meta.name,
                      Call.createDeployment src.meta.ns (expectedDeployment L image src sinkURI),
                      Call.recordEvent samplesourceDeploymentCreated] } := by
        simp [createReceiveAdapter, hget, hnf]
      rw [hw] at hrun ⊢
      simp only at hrun ⊢
      have hstored := hC w src.meta.ns (expectedDeployment L image src sinkURI) d1 _
        (Prod.ext hrun rfl)
      exact ⟨_, hstored, podSpecChanged_self _,
        second _ _ hstored (IsControlledBy_expected L image src sinkURI) (podSpecChanged_self _)⟩
    · simp [createReceiveAdapter, hget, hnf] at hrun
  | ok ra =>
    by_cases hown : IsControlledBy ra.meta src.meta = true
    · by_cases hch : podSpecChanged ra.spec.template.spec
          (expectedDeployment L image src sinkURI).spec.template.spec = true
      · cases hupd : C.updateDeployment w src.meta.ns
            { ra with spec := { ra.spec with template := { ra.spec.template with
                spec := (expectedDeployment L image src sinkURI).spec.template.spec } } } with
        | mk r w1 =>
          cases r with
          | error err => simp [createReceiveAdapter, hget, hown, hch, hupd] at hrun
          | ok ra2 =>
            have hw : (createReceiveAdapter L C image w src sinkURI).world = w1 := by
              simp [createReceiveAdapter, hget, hown, hch, hupd]
            rw [hw]
            have hstored := hU w src.meta.ns _ ra2 w1 hupd
            simp only at hstored
            rw [hG w src.meta.ns _ ra hget] at hstored
            exact ⟨_, hstored, podSpecChanged_self _,
              second _ _ hstored hown (podSpecChanged_self _)⟩
      · rw [Bool.not_eq_true] at hch
        have hw : (createReceiveAdapter L C image w src sinkURI).world = w := by
          simp [createReceiveAdapter, hget, hown, hch]
        rw [hw]
        exact ⟨ra, hget, hch, second w ra hget hown hch⟩
    · rw [Bool.not_eq_true] at hown
      simp [createReceiveAdapter, hget, hown] at hrun


theorem find?_map_replace {α : Type} (p : α → Bool) (d : α) (hd : p d = true) (l : List α)
    (h : l.find? p ≠ none) :
    (l.map (fun x => if p x = true then d else x)).find? p = some d := by
  induction l with
  | nil => simp at h
  | cons x xs ih =>
    by_cases hx : p x = true
    · simp [hx, hd]
    · have hxs : xs.find? p ≠ none := by
        simpa [List.find?_cons, hx] using h
      simp only [List.map_cons, hx, Bool.false_eq_true, ↓reduceIte, List.find?_cons]
      exact ih hxs

/-- The in-memory deployment store returns what was last created or updated. -/
theorem memCollab_returnsLastWritten : ReturnsLastWritten memCollab := by
  refine ⟨?_, ?_, ?_⟩
  · intro w ns name d h
    simp only [memCollab] at h
    cases hf : w.deployments.find?
        (fun d => decide (d.meta.ns = ns ∧ d.meta.name = name)) with
    | none =>
      rw [hf] at h
      cases h
    | some x =>
      rw [hf] at h
      cases h
      have := List.find?_some hf
      simp at this
      exact this.2
  · intro w ns d r w1 h
    simp only [memCollab] at h
    by_cases hc : d.meta.ns = ns ∧
        (w.deployments.find? (fun x => decide (x.meta.ns = ns ∧ x.meta.name = d.meta.name))) = none
    · rw [if_pos hc] at h
      obtain ⟨_, rfl⟩ := Prod.mk.inj h
      simp only [memCollab, List.find?_append, hc.2, Option.none_or]
      simp [hc.1]
    · rw [if_neg hc] at h
      simp at h
  · intro w ns d r w1 h
    simp only [memCollab] at h
    by_cases hc : d.meta.ns = ns ∧
        (w.deployments.find? (fun x => decide (x.meta.ns = ns ∧ x.meta.name = d.meta.name))) ≠ none
    · rw [if_pos hc] at h
      obtain ⟨_, rfl⟩ := Prod.mk.inj h
      have := find?_map_replace (fun x : Deployment => decide (x.meta.ns = ns ∧ x.meta.name = d.meta.name)) d
        (by simp [hc.1]) w.deployments hc.2
      simp only [decide_eq_true_eq] at this
      simp only [memCollab, this]
    · rw [if_neg hc] at h
      simp at h

/-- Witness of `createReceiveAdapter_idempotent`: starting from the empty
in-memory world, the first run for `default/src` creates the deployment. -/
theorem createReceiveAdapter_idempotent_witness :
    (createReceiveAdapter sampleHelpers memCollab "img" emptyWorld
        (sampleSource (some serviceSink)) "http://sink").result =
      Except.ok (expectedDeployment sampleHelpers "img" (sampleSource (some serviceSink))
        "http://sink") ∧
    (createReceiveAdapter sampleHelpers memCollab "img"
        (createReceiveAdapter sampleHelpers memCollab "img" emptyWorld
          (sampleSource (some serviceSink)) "http://sink").world
        (sampleSource (some serviceSink)) "http://sink").calls =
      [Call.getDeployment "default" "samplesource-src-uid-1"] :=
  ⟨rfl,
   (createReceiveAdapter_idempotent sampleHelpers memCollab memCollab_returnsLastWritten "img"
      emptyWorld (sampleSource (some serviceSink)) "http://sink" _ rfl).elim
      (fun _ h => h.2.2.2.1)⟩

/-! ## The sink condition on the success path -/

/-- The condition `MarkTrue` stores for SinkProvided. -/
theorem MarkSink_condition (s : SampleSourceStatus) (uri : String) (h : uri.length > 0) :
    (s.MarkSink uri).GetCondition SampleConditionSinkProvided =
      some { type := SampleConditionSinkProvided, status := ConditionStatus.ConditionTrue,
             severity := ConditionSeverity.Error, reason := "", message := "" } ∧
    (s.MarkSink uri).sinkURI = uri := by
  simp [SampleSourceStatus.MarkSink, SampleSourceStatus.GetCondition, h, CondSet.MarkTrue,
    GetCondition_SetCondition]

theorem PropagateDeploymentAvailability_sink (L : Helpers) (s : SampleSourceStatus)
    (d : Deployment) :
    (s.PropagateDeploymentAvailability L d).GetCondition SampleConditionSinkProvided =
      s.GetCondition SampleConditionSinkProvided ∧
    (s.PropagateDeploymentAvailability L d).sinkURI = s.sinkURI := by
  unfold SampleSourceStatus.PropagateDeploymentAvailability
  have hne : ¬ (SampleConditionDeployed = SampleConditionSinkProvided) := by decide
  by_cases h : L.DeploymentIsAvailable d.status false = true
  · simp [h, SampleSourceStatus.GetCondition, CondSet.MarkTrue, GetCondition_SetCondition, hne]
  · simp [h, SampleSourceStatus.GetCondition, CondSet.MarkFalse, GetCondition_SetCondition, hne]

theorem MarkEventTypes_sink (s : SampleSourceStatus) :
    (s.MarkEventTypes).GetCondition SampleConditionSinkProvided =
      s.GetCondition SampleConditionSinkProvided ∧
    (s.MarkEventTypes).sinkURI = s.sinkURI := by
  have hne : ¬ (SampleConditionEventTypeProvided = SampleConditionSinkProvided) := by decide
  simp [SampleSourceStatus.MarkEventTypes, SampleSourceStatus.GetCondition, CondSet.MarkTrue,
    GetCondition_SetCondition, hne]

theorem MarkNoEventTypes_sink (s : SampleSourceStatus) (reason message : String) :
    (s.MarkNoEventTypes reason message).GetCondition SampleConditionSinkProvided =
      s.GetCondition SampleConditionSinkProvided ∧
    (s.MarkNoEventTypes reason message).sinkURI = s.sinkURI := by
  have hne : ¬ (SampleConditionEventTypeProvided = SampleConditionSinkProvided) := by decide
  simp [SampleSourceStatus.MarkNoEventTypes, SampleSourceStatus.GetCondition, CondSet.MarkFalse,
    GetCondition_SetCondition, hne]

/-- C7, what the code does. When the sink resolves to a non-empty URI and
`spec.sink` uses the deprecated reference fields, `reconcile` first calls
`MarkSinkWarnRefDeprecated` and then, unconditionally, `MarkSink`, which
replaces the condition: the SinkProvided condition left in the status is True
with Error severity and an empty message, not the deprecation warning, on
every path that follows the resolution. `status.SinkURI` holds the resolved
URI. -/
theorem reconcile_deprecated_sink_message_lost {W : Type} (L : Helpers) (C : Collaborators W)
    (image : String) (w : W) (source : SampleSource) (sink : Destination) (sinkURI : String)
    (hsink : source.spec.sink = some sink)
    (hdep : usesDeprecatedRef sink = true)
    (hres : C.URIFromDestination w
      (normalizeDestination sink { source with status := source.status.InitializeConditions })
      { source with status := source.status.InitializeConditions } = Except.ok sinkURI)
    (huri : sinkURI.length > 0) :
    (reconcile L C image w source).result.2.status.GetCondition SampleConditionSinkProvided =
      some { type := SampleConditionSinkProvided, status := ConditionStatus.ConditionTrue,
             severity := ConditionSeverity.Error, reason := "", message := "" } ∧
    (∀ c, (reconcile L C image w source).result.2.status.GetCondition
        SampleConditionSinkProvided = some c →
      c.message ≠ SampleSourceStatus.deprecatedRefMessage) ∧
    (reconcile L C image w source).result.2.status.sinkURI = sinkURI := by
  have key : (reconcile L C image w source).result.2.status.GetCondition
        SampleConditionSinkProvided =
      some { type := SampleConditionSinkProvided, status := ConditionStatus.ConditionTrue,
             severity := ConditionSeverity.Error, reason := "", message := "" } ∧
      (reconcile L C image w source).result.2.status.sinkURI = sinkURI := by
    simp only [reconcile, hsink, hres, hdep, ↓reduceIte]
    split
    · exact MarkSink_condition _ _ huri
    · split
      · refine ⟨((MarkNoEventTypes_sink _ _ _).1).trans ?_, ((MarkNoEventTypes_sink _ _ _).2).trans ?_⟩
        · exact ((PropagateDeploymentAvailability_sink L _ _).1).trans (MarkSink_condition _ _ huri).1
        · exact ((PropagateDeploymentAvailability_sink L _ _).2).trans (MarkSink_condition _ _ huri).2
      · refine ⟨((MarkEventTypes_sink _).1).trans ?_, ((MarkEventTypes_sink _).2).trans ?_⟩
        · exact ((PropagateDeploymentAvailability_sink L _ _).1).trans (MarkSink_condition _ _ huri).1
        · exact ((PropagateDeploymentAvailability_sink L _ _).2).trans (MarkSink_condition _ _ huri).2
  refine ⟨key.1, ?_, key.2⟩
  intro c hc
  rw [key.1] at hc
  cases hc
  decide

/-- Witness of `reconcile_deprecated_sink_message_lost`: `default/src` with the
deprecated reference fields, reconciled against the in-memory collaborators. -/
theorem reconcile_deprecated_sink_message_lost_witness :
    (sampleSource (some deprecatedSink)).spec.sink = some deprecatedSink ∧
    usesDeprecatedRef deprecatedSink = true ∧
    (reconcile sampleHelpers memCollab "img" emptyWorld
        (sampleSource (some deprecatedSink))).result.1 = none ∧
    (reconcile sampleHelpers memCollab "img" emptyWorld
        (sampleSource (some deprecatedSink))).result.2.status.GetCondition
          SampleConditionSinkProvided =
      some { type := SampleConditionSinkProvided, status := ConditionStatus.ConditionTrue,
             severity := ConditionSeverity.Error, reason := "", message := "" } ∧
    (reconcile sampleHelpers memCollab "img" emptyWorld
        (sampleSource (some deprecatedSink))).result.2.status.sinkURI =
      "http://sink.default.svc.cluster.local" :=
  have h := reconcile_deprecated_sink_message_lost sampleHelpers memCollab "img" emptyWorld
    (sampleSource (some deprecatedSink)) deprecatedSink "http://sink.default.svc.cluster.local"
    rfl (by decide) rfl (by decide)
  ⟨rfl, by decide, rfl, h.1, h.2.2⟩

/-! ## Event type convergence -/

theorem deleteLoop_eq {W : Type} (C : Collaborators W) (ns : String) (w : W)
    (l : List EventType) :
    deleteLoop C ns w l =
      abortOnFirstFailure C ns w (l.map (fun et => StoreOp.delete et.meta.name)) := by
  induction l generalizing w with
  | nil => rfl
  | cons et rest ih =>
    simp only [deleteLoop, List.map_cons, abortOnFirstFailure, StoreOp.exec, StoreOp.call]
    cases h : C.deleteEventType w ns et.meta.name with
    | mk r w1 =>
      cases r with
      | none => simp [ih]
      | some err => simp

theorem createLoop_eq {W : Type} (C : Collaborators W) (ns : String) (w : W)
    (l : List EventType) :
    createLoop C ns w l = abortOnFirstFailure C ns w (l.map StoreOp.create) := by
  induction l generalizing w with
  | nil => rfl
  | cons et rest ih =>
    simp only [createLoop, List.map_cons, abortOnFirstFailure, StoreOp.exec, StoreOp.call]
    cases h : C.createEventType w ns et with
    | mk r w1 =>
      cases r with
      | ok v => simp [ih]
      | error err => simp

theorem abortOnFirstFailure_append {W : Type} (C : Collaborators W) (ns : String) (w : W)
    (a b : List StoreOp) :
    abortOnFirstFailure C ns w (a ++ b) =
      match abortOnFirstFailure C ns w a with
      | (some err, w1, cs) => (some err, w1, cs)
      | (none, w1, cs) =>
        ((abortOnFirstFailure C ns w1 b).1, (abortOnFirstFailure C ns w1 b).2.1,
          cs ++ (abortOnFirstFailure C ns w1 b).2.2) := by
  induction a generalizing w with
  | nil => simp [abortOnFirstFailure]
  | cons op rest ih =>
    simp only [List.cons_append, abortOnFirstFailure]
    cases h : op.exec C ns w with
    | mk r w1 =>
      cases r with
      | some err => simp
      | none =>
        have hi := ih w1
        cases h2 : abortOnFirstFailure C ns w1 rest with
        | mk r2 rest2 =>
          cases rest2 with
          | mk w2 cs2 =>
            rw [h2] at hi
            cases r2 <;> simp [hi, h2]

/-- The calls issued form an initial segment of the plan; without an error the
whole plan was issued. -/
theorem abortOnFirstFailure_calls {W : Type} (C : Collaborators W) (ns : String) (w : W)
    (plan : List StoreOp) :
    (∃ k, (abortOnFirstFailure C ns w plan).2.2 = (plan.take k).map (StoreOp.call ns)) ∧
    ((abortOnFirstFailure C ns w plan).1 = none →
      (abortOnFirstFailure C ns w plan).2.2 = plan.map (StoreOp.call ns)) := by
  induction plan generalizing w with
  | nil => exact ⟨⟨0, rfl⟩, fun _ => rfl⟩
  | cons op rest ih =>
    simp only [abortOnFirstFailure]
    cases h : op.exec C ns w with
    | mk r w1 =>
      cases r with
      | some err => exact ⟨⟨1, by simp⟩, by simp⟩
      | none =>
        obtain ⟨⟨k, hk⟩, hnone⟩ := ih w1
        refine ⟨⟨k + 1, by simp [hk]⟩, ?_⟩
        intro hr
        simp [hnone hr]

/-- If the operations of `pre` all succeed and the next operation fails, the
run returns that error, and no operation after the failing one is issued. -/
theorem abortOnFirstFailure_fails {W : Type} (C : Collaborators W) (ns : String) (w : W)
    (pre post : List StoreOp) (op : StoreOp) (w1 w2 : W) (err : Err)
    (hpre : abortOnFirstFailure C ns w pre = (none, w1, pre.map (StoreOp.call ns)))
    (hop : op.exec C ns w1 = (some err, w2)) :
    abortOnFirstFailure C ns w (pre ++ op :: post) =
      (some err, w2, (pre ++ [op]).map (StoreOp.call ns)) := by
  rw [abortOnFirstFailure_append, hpre]
  simp [abortOnFirstFailure, hop]

/-- `reconcileEventTypes` refines the reference behaviour on the plan of the
diff between the listed, controlled event types and the desired ones. -/
theorem reconcileEventTypes_eq {W : Type} (L : Helpers) (C : Collaborators W) (w : W)
    (src : SampleSource) (current : List EventType)
    (hget : getEventTypes L C w src = Except.ok current) :
    reconcileEventTypes L C w src =
      { result := (abortOnFirstFailure C src.meta.ns w
          (diffPlan (computeDiff current (makeEventTypes L src)))).1,
        world := (abortOnFirstFailure C src.meta.ns w
          (diffPlan (computeDiff current (makeEventTypes L src)))).2.1,
        calls := Call.listEventTypes src.meta.ns (L.Labels src.meta.name) ::
          (abortOnFirstFailure C src.meta.ns w
            (diffPlan (computeDiff current (makeEventTypes L src)))).2.2 } := by
  simp only [reconcileEventTypes, hget, diffPlan, abortOnFirstFailure_append, deleteLoop_eq,
    createLoop_eq]
  cases h : abortOnFirstFailure C src.meta.ns w
      ((computeDiff current (makeEventTypes L src)).2.map
        (fun et => StoreOp.delete et.meta.name)) with
  | mk r rest =>
    cases rest with
    | mk w1 cs =>
      cases r <;> simp


theorem abortOnFirstFailure_succeeds {W : Type} (C : Collaborators W) (ns : String) (w : W)
    (plan : List StoreOp) (h : ∀ w1, ∀ op ∈ plan, (op.exec C ns w1).1 = none) :
    (abortOnFirstFailure C ns w plan).1 = none := by
  induction plan generalizing w with
  | nil => rfl
  | cons op rest ih =>
    simp only [abortOnFirstFailure]
    cases hop : op.exec C ns w with
    | mk r w1 =>
      have h1 := h w op (by simp)
      rw [hop] at h1
      simp only at h1
      subst h1
      exact ih w1 (fun w2 op2 hop2 => h w2 op2 (by simp [hop2]))

theorem computeDiff_nil_expected (current : List EventType) :
    computeDiff current [] = ([], current) := by
  rw [computeDiff_eq]
  simp [asMap_nil]

/-- In a call list made of one leading call that is neither a Create nor a
Delete, then Deletes, then Creates, every Delete precedes every Create. -/
theorem delete_before_create (first : Call) (ds cs : List Call)
    (hd : ∀ c ∈ ds, c.isCreateEventType = false)
    (hc : ∀ c ∈ cs, c.isDeleteEventType = false)
    (i j : Nat) (ci cj : Call)
    (hi : (first :: (ds ++ cs))[i]? = some ci) (hj : (first :: (ds ++ cs))[j]? = some cj)
    (hci : ci.isCreateEventType = true) (hcj : cj.isDeleteEventType = true)
    (hfirst : first.isDeleteEventType = false) (hfirst2 : first.isCreateEventType = false) :
    j < i := by
  cases j with
  | zero =>
    simp at hj
    subst hj
    rw [hfirst] at hcj
    cases hcj
  | succ j1 =>
    cases i with
    | zero =>
      simp at hi
      subst hi
      rw [hfirst2] at hci
      cases hci
    | succ i1 =>
      simp only [List.getElem?_cons_succ] at hi hj
      by_contra hle
      have hle1 : i1 ≤ j1 := by omega
      -- the Delete at `j1` lies in `ds`
      have hjd : j1 < ds.length := by
        by_contra hge
        rw [List.getElem?_append_right (by omega)] at hj
        have := hc cj (List.getElem?_mem hj)
        rw [this] at hcj
        cases hcj
      have hid : i1 < ds.length := by omega
      rw [List.getElem?_append_left hid] at hi
      have := hd ci (List.getElem?_mem hi)
      rw [this] at hci
      cases hci


/-- C10. With `current` the listed event types controlled by the source and
`(toCreate, toDelete)` the result of `computeDiff`: (1) the calls issued are the
List, then an initial segment of the Deletes in `toDelete` order, then an
initial segment of the Creates in `toCreate` order, and a Create is issued only
after every Delete was; (2) when no error is returned all of them were issued;
(3) if the operations before some Delete or Create all succeed and that one
fails, its error is returned and no further operation is issued; (4) in the
calls issued every Delete precedes every Create. -/
theorem reconcileEventTypes_deletes_then_creates {W : Type} (L : Helpers)
    (C : Collaborators W) (w : W) (src : SampleSource) (current toCreate toDelete : List EventType)
    (hget : getEventTypes L C w src = Except.ok current)
    (hdiff : computeDiff current (makeEventTypes L src) = (toCreate, toDelete)) :
    (∃ a b, (reconcileEventTypes L C w src).calls =
        Call.listEventTypes src.meta.ns (L.Labels src.meta.name) ::
          ((toDelete.take a).map (fun et => Call.deleteEventType src.meta.ns et.meta.name) ++
           (toCreate.take b).map (fun et => Call.createEventType src.meta.ns et)) ∧
        (b ≠ 0 → toDelete.length ≤ a)) ∧
    ((reconcileEventTypes L C w src).result = none →
      (reconcileEventTypes L C w src).calls =
        Call.listEventTypes src.meta.ns (L.Labels src.meta.name) ::
          (toDelete.map (fun et => Call.deleteEventType src.meta.ns et.meta.name) ++
           toCreate.map (fun et => Call.createEventType src.meta.ns et))) ∧
    (∀ (pre post : List StoreOp) (op : StoreOp) (w1 w2 : W) (err : Err),
      diffPlan (toCreate, toDelete) = pre ++ op :: post →
      abortOnFirstFailure C src.meta.ns w pre = (none, w1, pre.map (StoreOp.call src.meta.ns)) →
      op.exec C src.meta.ns w1 = (some err, w2) →
        (reconcileEventTypes L C w src).result = some err ∧
        (reconcileEventTypes L C w src).world = w2 ∧
        (reconcileEventTypes L C w src).calls =
          Call.listEventTypes src.meta.ns (L.Labels src.meta.name) ::
            (pre ++ [op]).map (StoreOp.call src.meta.ns)) ∧
    (∀ (i j : Nat) (ci cj : Call),
      (reconcileEventTypes L C w src).calls[i]? = some ci →
      (reconcileEventTypes L C w src).calls[j]? = some cj →
      ci.isCreateEventType = true → cj.isDeleteEventType = true → j < i) := by
  have hplanCalls : (diffPlan (toCreate, toDelete)).map (StoreOp.call src.meta.ns) =
      toDelete.map (fun et => Call.deleteEventType src.meta.ns et.meta.name) ++
        toCreate.map (fun et => Call.createEventType src.meta.ns et) := by
    simp [diffPlan, StoreOp.call, Function.comp_def]
  have heq := reconcileEventTypes_eq L C w src current hget
  rw [hdiff] at heq
  obtain ⟨⟨k, hk⟩, hnone⟩ :=
    abortOnFirstFailure_calls C src.meta.ns w (diffPlan (toCreate, toDelete))
  have shape : (reconcileEventTypes L C w src).calls =
        Call.listEventTypes src.meta.ns (L.Labels src.meta.name) ::
          ((toDelete.take k).map (fun et => Call.deleteEventType src.meta.ns et.meta.name) ++
           (toCreate.take (k - toDelete.length)).map
             (fun et => Call.createEventType src.meta.ns et)) := by
    rw [heq]
    simp only [hk, List.cons.injEq, true_and]
    rw [List.map_take, hplanCalls, List.take_append_eq_append_take]
    simp [List.map_take]
  refine ⟨⟨k, k - toDelete.length, shape, by omega⟩, ?_, ?_, ?_⟩
  · intro hr
    rw [heq] at hr ⊢
    simp only at hr ⊢
    rw [hnone hr, hplanCalls]
  · intro pre post op w1 w2 err hplan hpre hop
    rw [heq, hplan, abortOnFirstFailure_fails C src.meta.ns w pre post op w1 w2 err hpre hop]
    exact ⟨rfl, rfl, rfl⟩
  · intro i j ci cj hi hj hci hcj
    rw [shape] at hi hj
    refine delete_before_create _ _ _ ?_ ?_ i j ci cj hi hj hci hcj rfl rfl
    · intro c hc
      obtain ⟨et, _, rfl⟩ := List.mem_map.1 hc
      rfl
    · intro c hc
      obtain ⟨et, _, rfl⟩ := List.mem_map.1 hc
      rfl

/-- Witness of `reconcileEventTypes_deletes_then_creates`: the store holds an
outdated descriptor of the sample event type, which is deleted before the new
one is created. -/
theorem reconcileEventTypes_deletes_then_creates_witness :
    getEventTypes sampleHelpers memCollab eventTypeWorld (sampleSource (some brokerSink)) =
      Except.ok [oldEventType] ∧
    (computeDiff [oldEventType]
        (makeEventTypes sampleHelpers (sampleSource (some brokerSink)))).2 = [oldEventType] ∧
    (reconcileEventTypes sampleHelpers memCollab eventTypeWorld
        (sampleSource (some brokerSink))).calls =
      [Call.listEventTypes "default" (sampleHelpers.Labels "src"),
       Call.deleteEventType "default" "et-old",
       Call.createEventType "default"
         (sampleHelpers.MakeEventType
           { src := sampleSource (some brokerSink), type := "dev.knative.sample",
             source := "default/src" })] :=
  ⟨rfl, rfl,
   (reconcileEventTypes_deletes_then_creates sampleHelpers memCollab eventTypeWorld
      (sampleSource (some brokerSink)) [oldEventType] _ _ rfl rfl).2.1 rfl⟩

/-- C8, as amended. For every source whose sink has no object reference or
whose reference kind is not `Broker`, `makeEventTypes` returns the empty list;
and when the List by the label selector of the source answers `items`,
`reconcileEventTypes` issues no Create, issues (when it returns no error)
exactly one Delete, in order, for every event type of `items` that is
controlled by the source, and returns no error when no Delete fails. -/
theorem reconcileEventTypes_non_broker {W : Type} (L : Helpers) (C : Collaborators W) (w : W)
    (src : SampleSource)
    (hnb : L.GetRef src.spec.sink = none ∨
      ∃ ref, L.GetRef src.spec.sink = some ref ∧ ref.kind ≠ "Broker") :
    makeEventTypes L src = [] ∧
    ∀ items, C.listEventTypes w src.meta.ns (L.Labels src.meta.name) = Except.ok items →
      (∀ c ∈ (reconcileEventTypes L C w src).calls, c.isCreateEventType = false) ∧
      ((reconcileEventTypes L C w src).result = none →
        (reconcileEventTypes L C w src).calls =
          Call.listEventTypes src.meta.ns (L.Labels src.meta.name) ::
            (items.filter (fun et => IsControlledBy et.meta src.meta)).map
              (fun et => Call.deleteEventType src.meta.ns et.meta.name)) ∧
      ((∀ w1 name, (C.deleteEventType w1 src.meta.ns name).1 = none) →
        (reconcileEventTypes L C w src).result = none) := by
  have hmake : makeEventTypes L src = [] := by
    unfold makeEventTypes
    rcases hnb with h | ⟨ref, h, hk⟩
    · simp [h]
    · simp [h, hk]
  refine ⟨hmake, ?_⟩
  intro items hlist
  have hget : getEventTypes L C w src =
      Except.ok (items.filter (fun et => IsControlledBy et.meta src.meta)) := by
    simp [getEventTypes, hlist]
  have hdiff : computeDiff (items.filter (fun et => IsControlledBy et.meta src.meta))
      (makeEventTypes L src) =
      ([], items.filter (fun et => IsControlledBy et.meta src.meta)) := by
    rw [hmake, computeDiff_nil_expected]
  have heq := reconcileEventTypes_eq L C w src _ hget
  rw [hdiff] at heq
  have hplan : (diffPlan (([] : List EventType),
        items.filter (fun et => IsControlledBy et.meta src.meta))).map
        (StoreOp.call src.meta.ns) =
      (items.filter (fun et => IsControlledBy et.meta src.meta)).map
        (fun et => Call.deleteEventType src.meta.ns et.meta.name) := by
    simp [diffPlan, StoreOp.call, Function.comp_def]
  obtain ⟨⟨k, hk⟩, hnone⟩ := abortOnFirstFailure_calls C src.meta.ns w
    (diffPlan (([] : List EventType), items.filter (fun et => IsControlledBy et.meta src.meta)))
  refine ⟨?_, ?_, ?_⟩
  · intro c hc
    rw [heq] at hc
    simp only [hk, List.mem_cons, List.mem_map] at hc
    rcases hc with rfl | ⟨op, hop, rfl⟩
    · rfl
    · have hmem := List.mem_of_mem_take hop
      simp only [diffPlan, List.map_nil, List.append_nil, List.mem_map] at hmem
      obtain ⟨et, _, rfl⟩ := hmem
      rfl
  · intro hr
    rw [heq] at hr ⊢
    simp only at hr ⊢
    rw [hnone hr, hplan]
  · intro hdel
    rw [heq]
    apply abortOnFirstFailure_succeeds
    intro w1 op hop
    simp only [diffPlan, List.map_nil, List.append_nil, List.mem_map] at hop
    obtain ⟨et, _, rfl⟩ := hop
    exact hdel w1 et.meta.name

/-- Witness of `reconcileEventTypes_non_broker`: the sink of `default/src` is a
Service and the store holds `oldEventType`, which is deleted. -/
theorem reconcileEventTypes_non_broker_witness :
    (∃ ref, sampleHelpers.GetRef (sampleSource (some serviceSink)).spec.sink = some ref ∧
      ref.kind ≠ "Broker") ∧
    makeEventTypes sampleHelpers (sampleSource (some serviceSink)) = [] ∧
    (reconcileEventTypes sampleHelpers memCollab eventTypeWorld
        (sampleSource (some serviceSink))).calls =
      [Call.listEventTypes "default" (sampleHelpers.Labels "src"),
       Call.deleteEventType "default" "et-old"] :=
  have hnb : ∃ ref, sampleHelpers.GetRef (sampleSource (some serviceSink)).spec.sink = some ref ∧
      ref.kind ≠ "Broker" :=
    ⟨{ kind := "Service", ns := "default", name := "sink", apiVersion := "v1" }, rfl, by decide⟩
  have h := reconcileEventTypes_non_broker sampleHelpers memCollab eventTypeWorld
    (sampleSource (some serviceSink)) (Or.inr hnb)
  ⟨hnb, h.1, (h.2 [oldEventType] rfl).2.1 rfl⟩

/-- C8, as stated, fails: `unlabeledEventType` exists in the store and is
controlled by `default/src`, whose sink is a Service, but it does not carry the
labels of the source. The List by label selector does not return it, and
`reconcileEventTypes` returns no error, issues the List and no Delete, and
leaves the event type in the store. -/
theorem reconcileEventTypes_unlabeled_survives :
    IsControlledBy unlabeledEventType.meta (sampleSource (some serviceSink)).meta = true ∧
    unlabeledEventType ∈ unlabeledWorld.eventTypes ∧
    makeEventTypes sampleHelpers (sampleSource (some serviceSink)) = [] ∧
    (reconcileEventTypes sampleHelpers memCollab unlabeledWorld
        (sampleSource (some serviceSink))).result = none ∧
    (reconcileEventTypes sampleHelpers memCollab unlabeledWorld
        (sampleSource (some serviceSink))).calls =
      [Call.listEventTypes "default" (sampleHelpers.Labels "src")] ∧
    unlabeledEventType ∈ (reconcileEventTypes sampleHelpers memCollab unlabeledWorld
        (sampleSource (some serviceSink))).world.eventTypes := by
  refine ⟨by decide, by decide, by decide, by decide, by decide, by decide⟩

/-! ## Status persistence -/

/-- `updateStatus` issues the readiness notification exactly when the lister
answers with a persisted source whose status differs from the computed one,
the computed status is ready, the persisted one is not, and the write
succeeds. -/
theorem updateStatus_notifies_iff {W : Type} (C : Collaborators W) (w : W)
    (desired : SampleSource) :
    (updateStatus C w desired).calls.any Call.isReadinessNotification = true ↔
      ∃ persisted cj w1,
        C.getSampleSource w desired.meta.ns desired.meta.name = Except.ok persisted ∧
        persisted.status ≠ desired.status ∧
        desired.status.IsReady = true ∧ persisted.status.IsReady = false ∧
        C.updateStatus w desired.meta.ns { persisted with status := desired.status } =
          (Except.ok cj, w1) := by
  unfold updateStatus
  cases hget : C.getSampleSource w desired.meta.ns desired.meta.name with
  | error err => simp [Call.isReadinessNotification]
  | ok persisted =>
    by_cases hs : persisted.status = desired.status
    · simp [hs, Call.isReadinessNotification]
    · cases hupd : C.updateStatus w desired.meta.ns { persisted with status := desired.status } with
      | mk r w1 =>
        cases r with
        | error err => simp [hs, hupd, Call.isReadinessNotification]
        | ok cj =>
          by_cases hr : desired.status.IsReady = true
          · by_cases hp : persisted.status.IsReady = true
            · simp [hs, hupd, hr, hp, Call.isReadinessNotification]
            · simp [hs, hupd, hr, hp, Call.isReadinessNotification]
          · simp [hs, hupd, hr, Call.isReadinessNotification]

/-- One run of `updateStatus` over a status store whose writes persist. -/
theorem updateStatus_step {W : Type} (C : Collaborators W) (hC : StatusWritesPersist C)
    (w : W) (p : SampleSource)
    (hw : C.getSampleSource w p.meta.ns p.meta.name = Except.ok p) (s : SampleSourceStatus) :
    C.getSampleSource (updateStatus C w { p with status := s }).world p.meta.ns p.meta.name =
      Except.ok { p with status := s } ∧
    (updateStatus C w { p with status := s }).calls =
      if p.status = s then [Call.getSampleSource p.meta.ns p.meta.name]
      else if s.IsReady = true ∧ p.status.IsReady = false then
        [Call.getSampleSource p.meta.ns p.meta.name,
         Call.updateStatus p.meta.ns { p with status := s },
         Call.recordEvent samplesourceReadinessChanged,
         Call.reportReady p.meta.ns p.meta.name]
      else
        [Call.getSampleSource p.meta.ns p.meta.name,
         Call.updateStatus p.meta.ns { p with status := s }] := by
  by_cases hs : p.status = s
  · subst hs
    simp [updateStatus, hw]
  · obtain ⟨cj, w1, hupd, hget1⟩ := hC w p s hw
    by_cases hr : s.IsReady = true
    · by_cases hp : p.status.IsReady = true
      · simp [updateStatus, hw, hs, hupd, hget1, hr, hp]
      · simp [updateStatus, hw, hs, hupd, hget1, hr, hp]
    · simp [updateStatus, hw, hs, hupd, hget1, hr]

/-- In the in-memory status store every write succeeds and becomes the
persisted status. -/
theorem memCollab_statusWritesPersist : StatusWritesPersist memCollab := by
  intro w p s hget
  simp only [memCollab] at hget ⊢
  cases hsrc : w.source with
  | none =>
    rw [hsrc] at hget
    cases hget
  | some q =>
    rw [hsrc] at hget
    simp only at hget ⊢
    by_cases hq : q.meta.ns = p.meta.ns ∧ q.meta.name = p.meta.name
    · rw [if_pos hq] at hget
      cases hget
      simp only [and_self, ↓reduceIte, Prod.mk.injEq, Except.ok.injEq]
      exact ⟨_, _, ⟨rfl, rfl⟩, by simp⟩
    · rw [if_neg hq] at hget
      cases hget

/-- C9, as amended. (1) `updateStatus` emits the readiness notification exactly
when the computed status differs from the persisted one, the computed status is
ready, the persisted one is not, and the status write succeeds. (2) Over a
status store in which every write succeeds and becomes the persisted status,
across four successive runs whose computed statuses are not ready, not ready,
ready, ready, the notification is emitted by the third run only; the fourth run
performs no status write when its computed status equals the third one, and
performs a write without notification when it differs. -/
theorem updateStatus_readiness_notification {W : Type} (C : Collaborators W) (w : W)
    (desired : SampleSource) (p0 : SampleSource) (s1 s2 s3 s4 : SampleSourceStatus)
    (hC : StatusWritesPersist C)
    (hget : C.getSampleSource w p0.meta.ns p0.meta.name = Except.ok p0)
    (h1 : s1.IsReady = false) (h2 : s2.IsReady = false)
    (h3 : s3.IsReady = true) (_h4 : s4.IsReady = true) :
    ((updateStatus C w desired).calls.any Call.isReadinessNotification = true ↔
      ∃ persisted cj w1,
        C.getSampleSource w desired.meta.ns desired.meta.name = Except.ok persisted ∧
        persisted.status ≠ desired.status ∧
        desired.status.IsReady = true ∧ persisted.status.IsReady = false ∧
        C.updateStatus w desired.meta.ns { persisted with status := desired.status } =
          (Except.ok cj, w1)) ∧
    (∃ c1 c2 c3 c4, runUpdates C w p0 [s1, s2, s3, s4] = [c1, c2, c3, c4] ∧
      c1.any Call.isReadinessNotification = false ∧
      c2.any Call.isReadinessNotification = false ∧
      c3 = [Call.getSampleSource p0.meta.ns p0.meta.name,
            Call.updateStatus p0.meta.ns { p0 with status := s3 },
            Call.recordEvent samplesourceReadinessChanged,
            Call.reportReady p0.meta.ns p0.meta.name] ∧
      c4.any Call.isReadinessNotification = false ∧
      (s4 = s3 → c4.any Call.isStatusWrite = false) ∧
      (s4 ≠ s3 → c4.any Call.isStatusWrite = true)) := by
  refine ⟨updateStatus_notifies_iff C w desired, ?_⟩
  obtain ⟨hw1, hc1⟩ := updateStatus_step C hC w p0 hget s1
  obtain ⟨hw2, hc2⟩ := updateStatus_step C hC _ { p0 with status := s1 } hw1 s2
  obtain ⟨hw3, hc3⟩ := updateStatus_step C hC _ { p0 with status := s2 } hw2 s3
  obtain ⟨_, hc4⟩ := updateStatus_step C hC _ { p0 with status := s3 } hw3 s4
  have hne23 : ¬ (s2 = s3) := by
    intro h
    rw [h, h3] at h2
    cases h2
  refine ⟨_, _, _, _, rfl, ?_, ?_, ?_, ?_, ?_, ?_⟩
  · rw [hc1]
    by_cases h : p0.status = s1 <;> simp [h, h1, Call.isReadinessNotification]
  · rw [hc2]
    by_cases h : s1 = s2 <;> simp [h, h2, Call.isReadinessNotification]
  · rw [hc3]
    simp [hne23, h2, h3]
  · rw [hc4]
    by_cases h : s3 = s4 <;> simp [h, h3, Call.isReadinessNotification]
  · intro h
    rw [hc4]
    simp [h, Call.isStatusWrite]
  · intro h
    rw [hc4]
    have h' : ¬ (s3 = s4) := fun e => h e.symm
    simp [h', h3, Call.isStatusWrite]

/-- Witness of `updateStatus_readiness_notification`: the in-memory store holds
`default/src` with the empty status; the computed statuses are the empty
status twice, then the ready status twice. -/
theorem updateStatus_readiness_notification_witness :
    emptyStatus.IsReady = false ∧ (readyStatus "http://sink").IsReady = true ∧
    (∃ c1 c2 c3 c4,
      runUpdates memCollab persistedWorld (sampleSource (some serviceSink))
        [emptyStatus, emptyStatus, readyStatus "http://sink", readyStatus "http://sink"] =
        [c1, c2, c3, c4] ∧
      c1.any Call.isReadinessNotification = false ∧
      c2.any Call.isReadinessNotification = false ∧
      c3 = [Call.getSampleSource "default" "src",
            Call.updateStatus "default"
              { sampleSource (some serviceSink) with status := readyStatus "http://sink" },
            Call.recordEvent samplesourceReadinessChanged,
            Call.reportReady "default" "src"] ∧
      c4.any Call.isReadinessNotification = false ∧
      (readyStatus "http://sink" = readyStatus "http://sink" →
        c4.any Call.isStatusWrite = false) ∧
      (readyStatus "http://sink" ≠ readyStatus "http://sink" →
        c4.any Call.isStatusWrite = true)) :=
  ⟨by decide, by decide,
   (updateStatus_readiness_notification memCollab persistedWorld
      (sampleSource (some serviceSink)) (sampleSource (some serviceSink))
      emptyStatus emptyStatus (readyStatus "http://sink") (readyStatus "http://sink")
      memCollab_statusWritesPersist rfl (by decide) (by decide) (by decide) (by decide)).2⟩

/-- C9, as stated, fails: over the in-memory status store, the computed statuses
are not ready, not ready, ready with sink URI `http://a`, ready with sink URI
`http://b`. The notification is emitted by the third run only, and the fourth
run does write the status. -/
theorem updateStatus_fourth_run_writes :
    emptyStatus.IsReady = false ∧
    (readyStatus "http://a").IsReady = true ∧ (readyStatus "http://b").IsReady = true ∧
    (runUpdates memCollab persistedWorld (sampleSource (some serviceSink))
        [emptyStatus, emptyStatus, readyStatus "http://a", readyStatus "http://b"]).map
        (fun calls => calls.any Call.isReadinessNotification) = [false, false, true, false] ∧
    (runUpdates memCollab persistedWorld (sampleSource (some serviceSink))
        [emptyStatus, emptyStatus, readyStatus "http://a", readyStatus "http://b"])[3]? =
      some [Call.getSampleSource "default" "src",
            Call.updateStatus "default"
              { sampleSource (some serviceSink) with status := readyStatus "http://b" }] ∧
    ((runUpdates memCollab persistedWorld (sampleSource (some serviceSink))
        [emptyStatus, emptyStatus, readyStatus "http://a", readyStatus "http://b"]).map
        (fun calls => calls.any Call.isStatusWrite))[3]? = some true := by
  refine ⟨by decide, by decide, by decide, by decide, by decide, by decide⟩

/-! ## Keys and order of the diff -/

theorem asMap_eq_currentWithKey (l : List EventType) (k : String) :
    asMap l keyFromEventType k = currentWithKey l k := by
  unfold currentWithKey
  induction l using List.reverseRecOn with
  | nil => rfl
  | append_singleton l x ih =>
    rw [asMap_append_singleton, List.filter_append]
    by_cases hk : k = keyFromEventType x
    · subst hk
      simp [List.filter_cons]
    · have hk2 : ¬ keyFromEventType x = k := fun h => hk h.symm
      simp [List.filter_cons, hk, hk2, ih]

theorem asMap_eq_none_iff_keyAbsent (l : List EventType) (k : String) :
    asMap l keyFromEventType k = none ↔ keyAbsent l k = true := by
  rw [asMap_eq_none_iff]
  simp [keyAbsent]

theorem isCreation_eq_byOrder (current : List EventType) (e : EventType) :
    isCreation (asMap current keyFromEventType) e = isCreationByOrder current e := by
  unfold isCreation isCreationByOrder
  cases hm : asMap current keyFromEventType (keyFromEventType e) with
  | none =>
    have h1 := (asMap_eq_none_iff_keyAbsent _ _).1 hm
    simp [h1]
  | some c =>
    have h1 : keyAbsent current (keyFromEventType e) = false := by
      rw [Bool.eq_false_iff]
      intro h
      rw [← asMap_eq_none_iff_keyAbsent, hm] at h
      cases h
    rw [asMap_eq_currentWithKey] at hm
    simp [h1, hm]

theorem replaced_eq_byOrder (current : List EventType) (e : EventType) :
    replaced (asMap current keyFromEventType) e = replacedByOrder current e := by
  unfold replaced replacedByOrder
  rw [asMap_eq_currentWithKey]
  cases currentWithKey current (keyFromEventType e) <;> rfl

theorem currentWithKey_mem (current : List EventType) (k : String) (c : EventType)
    (h : currentWithKey current k = some c) : c ∈ current ∧ keyFromEventType c = k := by
  rw [← asMap_eq_currentWithKey] at h
  exact asMap_some_mem _ _ _ _ h


/-- Equal type, source, schema and broker give equal keys. -/
theorem keyFromEventType_eq_of_sameIdentity (a b : EventType) (h : sameIdentity a b) :
    keyFromEventType a = keyFromEventType b := by
  obtain ⟨h1, h2, h3, h4⟩ := h
  simp [keyFromEventType, h1, h2, h3, h4]

theorem append_sep_inj {α : Type} (sep : α) (a1 a2 r1 r2 : List α)
    (h1 : sep ∉ a1) (h2 : sep ∉ a2) (h : a1 ++ sep :: r1 = a2 ++ sep :: r2) :
    a1 = a2 ∧ r1 = r2 := by
  induction a1 generalizing a2 with
  | nil =>
    cases a2 with
    | nil => simpa using h
    | cons y ys =>
      simp only [List.nil_append, List.cons_append, List.cons.injEq] at h
      exact absurd (h.1 ▸ List.mem_cons_self _ _) h2
  | cons x xs ih =>
    cases a2 with
    | nil =>
      simp only [List.nil_append, List.cons_append, List.cons.injEq] at h
      exact absurd (h.1 ▸ List.mem_cons_self _ _) h1
    | cons y ys =>
      simp only [List.cons_append, List.cons.injEq] at h
      obtain ⟨hxy, hrest⟩ := h
      have := ih ys (fun hm => h1 (List.mem_cons_of_mem _ hm))
        (fun hm => h2 (List.mem_cons_of_mem _ hm)) hrest
      exact ⟨by rw [hxy, this.1], this.2⟩

/-- Where the type, the source and the schema of two descriptors hold no
underscore, equal keys give equal type, source, schema and broker. -/
theorem sameIdentity_of_keyFromEventType_eq (a b : EventType)
    (ha : '_' ∉ a.spec.type.data ∧ '_' ∉ a.spec.source.data ∧ '_' ∉ a.spec.schema.data)
    (hb : '_' ∉ b.spec.type.data ∧ '_' ∉ b.spec.source.data ∧ '_' ∉ b.spec.schema.data)
    (h : keyFromEventType a = keyFromEventType b) : sameIdentity a b := by
  have hd := congrArg String.data h
  simp only [keyFromEventType, String.data_append, List.append_assoc] at hd
  have hsep : ("_" : String).data = ['_'] := rfl
  simp only [hsep, List.singleton_append] at hd
  obtain ⟨e1, hd⟩ := append_sep_inj '_' _ _ _ _ ha.1 hb.1 hd
  obtain ⟨e2, hd⟩ := append_sep_inj '_' _ _ _ _ ha.2.1 hb.2.1 hd
  obtain ⟨e3, e4⟩ := append_sep_inj '_' _ _ _ _ ha.2.2 hb.2.2 hd
  exact ⟨String.ext e1, String.ext e2, String.ext e3, String.ext e4⟩

/-- C11, at the failing input. `orderCreated` (type `com.example.order_created`,
source `shop`) and `orderFromCreatedShop` (type `com.example.order`, source
`created_shop`) differ in type and in source, and `keyFromEventType` gives both
the key `com.example.order_created_shop__br`: equal keys do not imply equal
type, source, schema and broker. -/
theorem keyFromEventType_collision :
    orderCreated.spec.type ≠ orderFromCreatedShop.spec.type ∧
    orderCreated.spec.source ≠ orderFromCreatedShop.spec.source ∧
    keyFromEventType orderCreated = "com.example.order_created_shop__br" ∧
    keyFromEventType orderFromCreatedShop = "com.example.order_created_shop__br" ∧
    ¬ sameIdentity orderCreated orderFromCreatedShop ∧
    ¬ (∀ a b : EventType, keyFromEventType a = keyFromEventType b ↔ sameIdentity a b) := by
  have hne : ¬ sameIdentity orderCreated orderFromCreatedShop :=
    fun h => absurd h.1 (by decide)
  refine ⟨by decide, by decide, by decide, by decide, hne, ?_⟩
  intro h
  exact hne ((h orderCreated orderFromCreatedShop).1 (by decide))

/-- C12. For every `current` and `desired`, the output of `computeDiff` is the
diff by list order: `toCreate` is the sub-list of `desired`, in its order, of
the descriptors whose key is absent from `current` or whose spec differs from
the spec of the current descriptor with that key; `toDelete` is, for each such
spec-differing desired descriptor in the order of `desired`, the current
descriptor with its key, followed by the sub-list of `current`, in its order,
of the descriptors whose key is absent from `desired`. Every element of
`toCreate` comes from `desired` and every element of `toDelete` from `current`.
The current descriptor with a key is the one of that key when `current` holds
only one. -/
theorem computeDiff_by_list_order (current desired : List EventType) :
    computeDiff current desired = diffByOrder current desired ∧
    (computeDiff current desired).1 = desired.filter (isCreationByOrder current) ∧
    (computeDiff current desired).2 =
      desired.filterMap (replacedByOrder current) ++
        current.filter (fun c => keyAbsent desired (keyFromEventType c)) ∧
    List.Sublist (computeDiff current desired).1 desired ∧
    List.Sublist (current.filter (fun c => keyAbsent desired (keyFromEventType c))) current ∧
    (∀ e ∈ (computeDiff current desired).1, e ∈ desired) ∧
    (∀ c ∈ (computeDiff current desired).2, c ∈ current) ∧
    (∀ c ∈ current, (∀ d ∈ current, keyFromEventType d = keyFromEventType c → d = c) →
      currentWithKey current (keyFromEventType c) = some c) := by
  have hfilter : desired.filter (isCreation (asMap current keyFromEventType)) =
      desired.filter (isCreationByOrder current) :=
    List.filter_congr (fun e _ => isCreation_eq_byOrder current e)
  have hmap : desired.filterMap (replaced (asMap current keyFromEventType)) =
      desired.filterMap (replacedByOrder current) := by
    congr 1
    funext e
    exact replaced_eq_byOrder current e
  have hcur : current.filter
        (fun c => (asMap desired keyFromEventType (keyFromEventType c)).isNone) =
      current.filter (fun c => keyAbsent desired (keyFromEventType c)) := by
    apply List.filter_congr
    intro c _
    cases hm : asMap desired keyFromEventType (keyFromEventType c) with
    | none => simp [(asMap_eq_none_iff_keyAbsent _ _).1 hm]
    | some x =>
      have : keyAbsent desired (keyFromEventType c) = false := by
        rw [Bool.eq_false_iff]
        intro h
        rw [← asMap_eq_none_iff_keyAbsent, hm] at h
        cases h
      simp [this]
  have heq : computeDiff current desired = diffByOrder current desired := by
    rw [computeDiff_eq, hfilter, hmap, hcur]
    rfl
  refine ⟨heq, by rw [heq]; rfl, by rw [heq]; rfl, ?_, List.filter_sublist _, ?_, ?_, ?_⟩
  · rw [heq]
    exact List.filter_sublist _
  · intro e he
    rw [heq] at he
    exact (List.mem_filter.1 he).1
  · intro c hc
    rw [heq] at hc
    rcases List.mem_append.1 hc with h | h
    · obtain ⟨e, _, hr⟩ := List.mem_filterMap.1 h
      unfold replacedByOrder at hr
      cases hk : currentWithKey current (keyFromEventType e) with
      | none => simp [hk] at hr
      | some x =>
        simp only [hk] at hr
        by_cases hs : e.spec = x.spec
        · simp [hs] at hr
        · simp only [ne_eq, hs, not_false_eq_true, ↓reduceIte, Option.some.injEq] at hr
          subst hr
          exact (currentWithKey_mem _ _ _ hk).1
    · exact (List.mem_filter.1 h).1
  · intro c hc huniq
    cases hk : currentWithKey current (keyFromEventType c) with
    | none =>
      rw [← asMap_eq_currentWithKey, asMap_eq_none_iff] at hk
      exact absurd rfl (hk c hc)
    | some x =>
      obtain ⟨hx, hxk⟩ := currentWithKey_mem _ _ _ hk
      rw [huniq x hx hxk]

/-- Witness of `computeDiff_by_list_order`. With `current` holding two
descriptors of one key (`dupSecond`, then `oldEventType`) and
`staleUnderscore`, and `desired` holding `dupFirst` and `wantedUnderscore`: both
desired descriptors are created, in the order of `desired`, and the current
descriptors stored under their keys are deleted in that order. In a list
holding one descriptor of a key, that descriptor is the current one with the
key. -/
theorem computeDiff_by_list_order_witness :
    computeDiff [dupSecond, oldEventType, staleUnderscore] [dupFirst, wantedUnderscore] =
      ([dupFirst, wantedUnderscore], [oldEventType, staleUnderscore]) ∧
    (∀ d ∈ [oldEventType, staleUnderscore],
      keyFromEventType d = keyFromEventType oldEventType → d = oldEventType) ∧
    currentWithKey [oldEventType, staleUnderscore] (keyFromEventType oldEventType) =
      some oldEventType :=
  ⟨(computeDiff_by_list_order [dupSecond, oldEventType, staleUnderscore]
      [dupFirst, wantedUnderscore]).1.trans (by decide),
   by decide,
   (computeDiff_by_list_order [oldEventType, staleUnderscore] []).2.2.2.2.2.2.2
      oldEventType (by simp) (by decide)⟩

end Reconciler
